import Mathlib

/-!
Verification of the trace stream subsystem (src/TraceStream.cc).

The six compressed substreams are modelled at record granularity: each
substream is a list of the records that the writer's fixed-layout
serialization would produce, and the reader consumes them from the front.
Byte-level framing is deterministic in the source (fixed-size structs,
length-prefixed payloads), so this embedding is faithful record by record.
Machine integers are modelled as Int/Nat (no arithmetic in the source can
overflow for the quantities involved), byte strings as `List Nat`, and the
verbatim-copied `double monotonic_sec` as its 64-bit pattern (a `Nat`).
C `assert`s and `FATAL()` aborts are modelled as `Option` failure (`none`).
-/

/-- Byte strings (C++ std::string / capnp Data). May contain NUL bytes. -/
abbrev Bytes := List Nat

/-- Bytes of a Lean string literal (for paths and fixed prefixes in the source). -/
def strBytes (s : String) : Bytes :=
  s.data.map Char.toNat

/-- SupportedArch: the two architectures handled by read_frame's switch. -/
inductive Arch
  | x86
  | x86_64
  deriving DecidableEq, Repr

/-- The event attached to a frame. `encode`/decode of EncodedEvent is a
fixed-size struct copy in the source, modelled as the identity, so the
record stores the event itself; `has_exec_info` and `arch` are the two
properties of the decoded event that TraceStream.cc consults. -/
structure Event where
  code : Nat
  has_exec_info : Bool
  arch : Arch
  deriving DecidableEq, Repr

/-- Registers: architecture plus the raw ptrace register block bytes
(get_ptrace_for_self_arch / set_from_ptrace_for_arch copy these verbatim). -/
structure Registers where
  arch : Arch
  blob : Bytes
  deriving DecidableEq, Repr

/-- Default-constructed Registers (TraceFrame's recorded_regs before decode). -/
def Registers.dflt : Registers :=
  { arch := Arch.x86, blob := [] }

/-- ExtraRegisters: format byte (ExtraRegisters::NONE = 0) and raw data bytes. -/
structure ExtraRegisters where
  format : Nat
  data : Bytes
  deriving DecidableEq, Repr

/-- ExtraRegisters::NONE. -/
def EXTRA_REGS_NONE : Nat := 0

/-- Default-constructed ExtraRegisters: format NONE, no data. -/
def ExtraRegisters.dflt : ExtraRegisters :=
  { format := EXTRA_REGS_NONE, data := [] }

/-- TraceFrame: { time, tid, event, ticks, monotonic_sec } plus the
recorded register state used when the event carries exec info. -/
structure TraceFrame where
  time : Int
  tid : Int
  ev : Event
  ticks : Int
  monotonic_sec : Nat
  regs : Registers
  extra_regs : ExtraRegisters
  deriving DecidableEq, Repr

/-- Default-constructed TraceFrame (what peek_frame returns at end of trace). -/
def TraceFrame.dflt : TraceFrame :=
  { time := 0, tid := 0, ev := { code := 0, has_exec_info := false, arch := Arch.x86 },
    ticks := 0, monotonic_sec := 0, regs := Registers.dflt, extra_regs := ExtraRegisters.dflt }

/-- BasicInfo: the fixed-size struct written first for every frame
(TraceStream.cc lines 241-247). -/
structure BasicInfo where
  global_time : Int
  tid : Int
  ev : Event
  ticks : Int
  monotonic_sec : Nat
  deriving DecidableEq, Repr

/-- The exec-info payload appended after BasicInfo when the event carries
exec info: arch tag byte, register block, extra-register format byte,
length, and raw extra-register bytes (write_frame lines 264-289). -/
structure ExecInfo where
  arch_tag : Arch
  reg_block : Bytes
  extra_reg_format : Nat
  extra_reg_data : Bytes
  deriving DecidableEq, Repr

/-- One EVENTS-substream record. The exec-info payload is present exactly
when the encoded event says HAS_EXEC_INFO; a mismatch is a framing error. -/
structure EventsRecord where
  basic : BasicInfo
  execInfo : Option ExecInfo
  deriving DecidableEq, Repr

/-- The three task-event variants stored in the TASKS substream. -/
inductive TaskVariant
  | clone (parent_tid : Int) (own_ns_tid : Int) (flags : Nat)
  | exec (file_name : Bytes) (cmd_line : List Bytes)
  | exit (exit_status : Int)
  deriving DecidableEq, Repr

/-- One TASKS-substream record: frame time, tid, and the variant payload
(write_task_event lines 347-386). -/
structure TaskEventRecord where
  frame_time : Int
  tid : Int
  variant : TaskVariant
  deriving DecidableEq, Repr

/-- In-memory TraceTaskEvent. `variant = none` represents
TraceTaskEvent::NONE (the sentinel type). -/
structure TraceTaskEvent where
  tid : Int
  variant : Option TaskVariant
  deriving DecidableEq, Repr

/-- Default-constructed TraceTaskEvent (the NONE sentinel that
read_task_event returns when TASKS is exhausted). -/
def TraceTaskEvent.dflt : TraceTaskEvent :=
  { tid := 0, variant := none }

/-- The source variant of an MMAPS record: zero | trace | file{backing}. -/
inductive MMapSource
  | zero
  | trace
  | file (backing_file_name : Bytes)
  deriving DecidableEq, Repr

/-- src.isTrace() (TraceStream.cc line 553). -/
def MMapSource.isTrace : MMapSource → Bool
  | MMapSource.trace => true
  | _ => false

/-- One MMAPS-substream record (write_mapped_region lines 493-509). -/
structure MMapRecord where
  frame_time : Int
  start : Nat
  end_ : Nat
  fsname : Bytes
  device : Nat
  inode : Nat
  prot : Nat
  flags : Nat
  file_offset_bytes : Int
  stat_mode : Nat
  stat_uid : Nat
  stat_gid : Nat
  stat_size : Int
  stat_mtime : Int
  source : MMapSource
  deriving DecidableEq, Repr

/-- KernelMapping: the fields of a mapping that TraceStream.cc reads. -/
structure KernelMapping where
  start : Nat
  end_ : Nat
  fsname : Bytes
  device : Nat
  inode : Nat
  prot : Nat
  flags : Nat
  file_offset_bytes : Int
  deriving DecidableEq, Repr

/-- The subset of struct stat consulted by write_mapped_region. -/
structure StatBuf where
  st_dev : Nat
  st_ino : Nat
  st_mode : Nat
  st_uid : Nat
  st_gid : Nat
  st_size : Int
  st_mtime : Int
  deriving DecidableEq, Repr

/-- MappingOrigin (TraceWriter::write_mapped_region's origin argument). -/
inductive MappingOrigin
  | SYSCALL_MAPPING
  | RR_BUFFER_MAPPING
  | REMAP_MAPPING
  | PATCH_MAPPING
  | EXEC_MAPPING
  deriving DecidableEq, Repr

/-- TraceWriter::RecordInTrace, the return of write_mapped_region. -/
inductive RecordInTrace
  | RECORD_IN_TRACE
  | DONT_RECORD_IN_TRACE
  deriving DecidableEq, Repr

/-- TraceReader::MappedDataSource. -/
inductive MappedDataSource
  | SOURCE_ZERO
  | SOURCE_TRACE
  | SOURCE_FILE
  deriving DecidableEq, Repr

/-- TraceReader::MappedData as filled in by read_mapped_region. -/
structure MappedData where
  time : Int
  source : MappedDataSource
  file_name : Bytes
  file_size_bytes : Int
  data_offset_bytes : Int
  deriving DecidableEq, Repr

/-- One RAW_DATA_HEADER record: { global_time, tid, addr, len }
(write_raw lines 697-703). -/
structure RawHeaderRecord where
  time : Int
  tid : Int
  addr : Nat
  len : Nat
  deriving DecidableEq, Repr

/-- TraceReader::RawData as returned by read_raw_data. -/
structure RawData where
  rec_tid : Int
  addr : Nat
  data : Bytes
  deriving DecidableEq, Repr

/-- One GENERIC-substream record: { global_time, len } then len bytes in
the same stream (write_generic lines 735-739). -/
structure GenericRecord where
  time : Int
  data : Bytes
  deriving DecidableEq, Repr

/-- TraceWriter state: the six substream contents, the frame clock, the
mmap counter and the files_assumed_immutable cache. -/
structure WriterState where
  events : List EventsRecord
  tasks : List TaskEventRecord
  mmaps : List MMapRecord
  rawHeader : List RawHeaderRecord
  rawData : Bytes
  generics : List GenericRecord
  global_time : Int
  mmap_count : Nat
  files_assumed_immutable : List (Nat × Nat)
  deriving DecidableEq, Repr

/-- A freshly constructed TraceWriter: all substreams empty, global time 1
(TraceWriter::TraceWriter line 805), mmap_count 0, empty immutability cache. -/
def TraceWriter.init : WriterState :=
  { events := [], tasks := [], mmaps := [], rawHeader := [], rawData := [],
    generics := [], global_time := 1, mmap_count := 0, files_assumed_immutable := [] }

/-- The persisted trace contents handed from a closed writer to a reader.
close() only flushes the compressors, so the logical contents are the
writer's substream lists. -/
structure TraceContents where
  events : List EventsRecord
  tasks : List TaskEventRecord
  mmaps : List MMapRecord
  rawHeader : List RawHeaderRecord
  rawData : Bytes
  generics : List GenericRecord
  deriving DecidableEq, Repr

/-- TraceWriter::close (lines 769-773): flush everything; the logical
substream contents are what lands on disk. -/
def TraceWriter.close (w : WriterState) : TraceContents :=
  { events := w.events, tasks := w.tasks, mmaps := w.mmaps,
    rawHeader := w.rawHeader, rawData := w.rawData, generics := w.generics }

/-- TraceReader state: per-substream cursors (the unread suffix of each
substream), the frame clock, the trace directory, and `xsave_ok`, which
models whether ExtraRegisters::set_to_raw_data succeeds, i.e. whether an
XSAVE layout is derivable from the recorded CPUID records (that routine
lives outside TraceStream.cc; modelled from the spec, 4.3). -/
structure ReaderState where
  events : List EventsRecord
  tasks : List TaskEventRecord
  mmaps : List MMapRecord
  rawHeader : List RawHeaderRecord
  rawData : Bytes
  generics : List GenericRecord
  global_time : Int
  trace_dir : Bytes
  xsave_ok : Bool
  deriving DecidableEq, Repr

/-- A freshly constructed TraceReader on a trace: cursors at the start of
every substream, and global_time 0 so the first tick yields 1
(TraceReader::TraceReader line 978). -/
def TraceReader.ofTrace (tc : TraceContents) (trace_dir : Bytes) (xsave_ok : Bool) :
    ReaderState :=
  { events := tc.events, tasks := tc.tasks, mmaps := tc.mmaps,
    rawHeader := tc.rawHeader, rawData := tc.rawData, generics := tc.generics,
    global_time := 0, trace_dir := trace_dir, xsave_ok := xsave_ok }

/-- TraceReader::at_end. Declared in TraceStream.h (not under src/).
Modelled from the spec: peek_frame reads a frame only when the EVENTS
substream is not exhausted (4.3: sentinel returns when a substream is
exhausted), so at_end holds when no EVENTS record remains. -/
def TraceReader.at_end (s : ReaderState) : Bool :=
  s.events.isEmpty

/-- TraceWriter::write_frame (lines 249-292): append BasicInfo, then the
exec-info payload when the event carries exec info, then tick_time(). -/
def write_frame (f : TraceFrame) (w : WriterState) : WriterState :=
  let rec_ : EventsRecord :=
    { basic := { global_time := f.time, tid := f.tid, ev := f.ev,
                 ticks := f.ticks, monotonic_sec := f.monotonic_sec },
      execInfo :=
        if f.ev.has_exec_info then
          some { arch_tag := f.regs.arch, reg_block := f.regs.blob,
                 extra_reg_format := f.extra_regs.format,
                 extra_reg_data := f.extra_regs.data }
        else none }
  { w with events := w.events ++ [rec_], global_time := w.global_time + 1 }

/-- TraceReader::read_frame (lines 294-345): decode BasicInfo, decode the
exec-info payload when the event carries exec info (unknown arch is fatal;
set_to_raw_data must succeed for nonempty extra registers, else fatal;
empty extra registers assert format == NONE), then tick_time() and assert
the decoded time matches the clock. Fatal paths and failed asserts are
`none`. -/
def read_frame (s : ReaderState) : Option (TraceFrame × ReaderState) :=
  match s.events with
  | [] => none
  | r :: rest =>
    let base : TraceFrame :=
      { time := r.basic.global_time, tid := r.basic.tid, ev := r.basic.ev,
        ticks := r.basic.ticks, monotonic_sec := r.basic.monotonic_sec,
        regs := Registers.dflt, extra_regs := ExtraRegisters.dflt }
    let decoded : Option TraceFrame :=
      if r.basic.ev.has_exec_info then
        match r.execInfo with
        | none => none
        | some e =>
          let decoded_regs : Registers := { arch := e.arch_tag, blob := e.reg_block }
          let decoded_extra : ExtraRegisters :=
            { format := e.extra_reg_format, data := e.extra_reg_data }
          if e.extra_reg_data.length > 0 then
            if s.xsave_ok then
              some { base with regs := decoded_regs, extra_regs := decoded_extra }
            else none
          else
            if e.extra_reg_format = EXTRA_REGS_NONE then
              some { base with regs := decoded_regs, extra_regs := ExtraRegisters.dflt }
            else none
      else
        match r.execInfo with
        | none => some base
        | some _ => none
    match decoded with
    | none => none
    | some f =>
      let t := s.global_time + 1
      if f.time = t then
        some (f, { s with events := rest, global_time := t })
      else none

/-- TraceReader::peek_frame (lines 889-900): save the EVENTS cursor and
the clock, read a frame unless at end, restore both. -/
def peek_frame (s : ReaderState) : Option (TraceFrame × ReaderState) :=
  let saved_events := s.events
  let saved_time := s.global_time
  if TraceReader.at_end s then
    some (TraceFrame.dflt, s)
  else
    match read_frame s with
    | none => none
    | some (f, s1) =>
      some (f, { s1 with events := saved_events, global_time := saved_time })

/-- Read n frames in sequence. -/
def read_frames : Nat → ReaderState → Option (List TraceFrame × ReaderState)
  | 0, s => some ([], s)
  | n + 1, s =>
    match read_frame s with
    | none => none
    | some (f, s1) =>
      match read_frames n s1 with
      | none => none
      | some (fs, s2) => some (f :: fs, s2)

/-- TraceWriter::write_task_event (lines 347-386): record frame_time =
global_time and the tid, then the variant payload. Writing a NONE event
hits assert(0), modelled as failure. -/
def write_task_event (e : TraceTaskEvent) (w : WriterState) : Option WriterState :=
  match e.variant with
  | none => none
  | some v =>
    some { w with tasks := w.tasks ++ [{ frame_time := w.global_time,
                                         tid := e.tid, variant := v }] }

/-- i32_to_tid (lines 388-393): FATAL on tid <= 0. -/
def i32_to_tid (tid : Int) : Option Int :=
  if tid ≤ 0 then none else some tid

/-- TraceReader::read_task_event (lines 395-435): sentinel when TASKS is
exhausted; otherwise decode the record, validating tids via i32_to_tid. -/
def read_task_event (s : ReaderState) : Option (TraceTaskEvent × ReaderState) :=
  match s.tasks with
  | [] => some (TraceTaskEvent.dflt, s)
  | r :: rest =>
    match i32_to_tid r.tid with
    | none => none
    | some tid =>
      match r.variant with
      | TaskVariant.clone p o fl =>
        match i32_to_tid p, i32_to_tid o with
        | some p2, some o2 =>
          some ({ tid := tid, variant := some (TaskVariant.clone p2 o2 fl) },
                { s with tasks := rest })
        | _, _ => none
      | TaskVariant.exec fn cl =>
        some ({ tid := tid, variant := some (TaskVariant.exec fn cl) },
              { s with tasks := rest })
      | TaskVariant.exit st =>
        some ({ tid := tid, variant := some (TaskVariant.exit st) },
              { s with tasks := rest })

/-- TraceWriter::write_raw (lines 697-703): append { global_time, tid,
addr, len } to RAW_DATA_HEADER and the payload bytes to RAW_DATA. -/
def write_raw (rec_tid : Int) (d : Bytes) (addr : Nat) (w : WriterState) : WriterState :=
  { w with
    rawHeader := w.rawHeader ++ [{ time := w.global_time, tid := rec_tid,
                                   addr := addr, len := d.length }],
    rawData := w.rawData ++ d }

/-- TraceReader::read_raw_data (lines 705-716): decode the next header,
assert its time equals global_time, then read len payload bytes. An
exhausted header stream or truncated payload is a read failure. -/
def read_raw_data (s : ReaderState) : Option (RawData × ReaderState) :=
  match s.rawHeader with
  | [] => none
  | h :: rest =>
    if h.time = s.global_time then
      if h.len ≤ s.rawData.length then
        some ({ rec_tid := h.tid, addr := h.addr, data := s.rawData.take h.len },
              { s with rawHeader := rest, rawData := s.rawData.drop h.len })
      else none
    else none

/-- TraceReader::read_raw_data_for_frame (lines 718-733): false when the
header stream is exhausted; otherwise peek the next header's time with
save_state/restore_state, assert it is not below the frame's time, return
false without consuming when it is above, and delegate to read_raw_data
when it matches. Result: `some (none, s)` is a false return, `some (some
d, s1)` a true return carrying the data. -/
def read_raw_data_for_frame (f : TraceFrame) (s : ReaderState) :
    Option (Option RawData × ReaderState) :=
  match s.rawHeader with
  | [] => some (none, s)
  | h :: _ =>
    if h.time < f.time then none
    else if h.time > f.time then some (none, s)
    else
      match read_raw_data s with
      | none => none
      | some (d, s1) => some (some d, s1)

/-- TraceWriter::write_generic (lines 735-739): append { global_time, len }
and the payload bytes to GENERIC. -/
def write_generic (d : Bytes) (w : WriterState) : WriterState :=
  { w with generics := w.generics ++ [{ time := w.global_time, data := d }] }

/-- TraceReader::read_generic (lines 741-749): decode the next record,
assert its time equals global_time, return the payload. -/
def read_generic (s : ReaderState) : Option (Bytes × ReaderState) :=
  match s.generics with
  | [] => none
  | g :: rest =>
    if g.time = s.global_time then
      some (g.data, { s with generics := rest })
    else none

/-- TraceReader::read_generic_for_frame (lines 751-767): mirrors
read_raw_data_for_frame on the GENERIC stream. -/
def read_generic_for_frame (f : TraceFrame) (s : ReaderState) :
    Option (Option Bytes × ReaderState) :=
  match s.generics with
  | [] => some (none, s)
  | g :: _ =>
    if g.time < f.time then none
    else if g.time > f.time then some (none, s)
    else
      match read_generic s with
      | none => none
      | some (d, s1) => some (some d, s1)

/-- MAP_PRIVATE (Linux mmap flag, 0x02). -/
def MAP_PRIVATE : Nat := 2

/-- base_file_name (lines 437-441): the component after the last slash. -/
def base_file_name (file_name : Bytes) : Bytes :=
  (file_name.reverse.takeWhile (fun c => c ≠ 47)).reverse

/-- Decimal digits of a natural number, as bytes (sprintf "%d"). -/
def natDigits (n : Nat) : Bytes :=
  (Nat.toDigits 10 n).map Char.toNat

/-- The clone destination name "mmap_clone_<count>_<basename>" (lines 466-467). -/
def clone_file_name (mmap_count : Nat) (file_name : Bytes) : Bytes :=
  strBytes "mmap_clone_" ++ natDigits mmap_count ++ strBytes "_" ++ base_file_name file_name

/-- The hardlink name "mmap_hardlink_<count>_<basename>" (lines 447-448). -/
def hardlink_file_name (mmap_count : Nat) (file_name : Bytes) : Bytes :=
  strBytes "mmap_hardlink_" ++ natDigits mmap_count ++ strBytes "_" ++ base_file_name file_name

/-- TraceWriter::try_hardlink_file (lines 443-455): on link success the
relative hardlink name, on failure the original file name. -/
def try_hardlink_file (link_ok : Bool) (mmap_count : Nat) (file_name : Bytes) : Bytes :=
  if link_ok then hardlink_file_name mmap_count file_name else file_name

/-- TraceWriter::try_clone_file (lines 457-488): succeeds (returning the
relative clone name) only when the session allows file cloning, the files
open, and the clone ioctl succeeds; `ok` bundles those external outcomes. -/
def try_clone_file (ok : Bool) (mmap_count : Nat) (file_name : Bytes) : Option Bytes :=
  if ok then some (clone_file_name mmap_count file_name) else none

/-- The external outcomes consulted by one write_mapped_region call:
the two try_clone_file attempts (the branch-5 attempt and the fallback
retry), the hardlink attempt, and should_copy_mmap_region(km, stat)
(which lives in util.cc, outside this file). -/
structure MappedRegionFs where
  clone1 : Bool
  clone2 : Bool
  hardlink : Bool
  should_copy : Bool
  deriving DecidableEq, Repr

/-- std::set insert on the (device, inode) cache. -/
def insertPair (p : Nat × Nat) (l : List (Nat × Nat)) : List (Nat × Nat) :=
  if p ∈ l then l else l ++ [p]

/-- "/SYSV" (SysV shared memory prefix tested at line 514). -/
def sysvName : Bytes := strBytes "/SYSV"

/-- "/dev/zero (deleted)" (tested at line 517). -/
def devZeroDeleted : Bytes := strBytes "/dev/zero (deleted)"

/-- The source classification of lines 512-542: the chosen MMap source,
paired with whether the fallback inserts (st_dev, st_ino) into
files_assumed_immutable (which happens only when the fallback's clone
retry fails, line 539). -/
def classify_step (fs : MappedRegionFs) (km : KernelMapping) (st : StatBuf)
    (origin : MappingOrigin) (files : List (Nat × Nat)) (mmap_count : Nat) :
    MMapSource × Bool :=
  if origin = MappingOrigin.REMAP_MAPPING ∨ origin = MappingOrigin.PATCH_MAPPING then
    (MMapSource.zero, false)
  else if sysvName.isPrefixOf km.fsname then
    (MMapSource.trace, false)
  else if origin = MappingOrigin.SYSCALL_MAPPING ∧
          (km.inode = 0 ∨ km.fsname = devZeroDeleted) then
    (MMapSource.zero, false)
  else if origin = MappingOrigin.RR_BUFFER_MAPPING then
    (MMapSource.zero, false)
  else if km.flags &&& MAP_PRIVATE ≠ 0 ∧
          (try_clone_file fs.clone1 mmap_count km.fsname).isSome then
    (MMapSource.file (clone_file_name mmap_count km.fsname), false)
  else if fs.should_copy ∧ (st.st_dev, st.st_ino) ∉ files then
    (MMapSource.trace, false)
  else
    match try_clone_file fs.clone2 mmap_count km.fsname with
    | some name => (MMapSource.file name, false)
    | none =>
      (MMapSource.file (try_hardlink_file fs.hardlink mmap_count km.fsname), true)

/-- TraceWriter::write_mapped_region (lines 490-554): fill the MMap record
from the mapping, the stat block and the current global_time; choose the
source by the if/else ladder of lines 512-542; append the record, bump
mmap_count, and return RECORD_IN_TRACE exactly when the chosen source is
Trace. -/
def write_mapped_region (fs : MappedRegionFs) (km : KernelMapping) (st : StatBuf)
    (origin : MappingOrigin) (w : WriterState) : RecordInTrace × WriterState :=
  let step : MMapSource × Bool :=
    classify_step fs km st origin w.files_assumed_immutable w.mmap_count
  let rec_ : MMapRecord :=
    { frame_time := w.global_time, start := km.start, end_ := km.end_,
      fsname := km.fsname, device := km.device, inode := km.inode,
      prot := km.prot, flags := km.flags, file_offset_bytes := km.file_offset_bytes,
      stat_mode := st.st_mode, stat_uid := st.st_uid, stat_gid := st.st_gid,
      stat_size := st.st_size, stat_mtime := st.st_mtime, source := step.1 }
  let files1 :=
    if step.2 then insertPair (st.st_dev, st.st_ino) w.files_assumed_immutable
    else w.files_assumed_immutable
  (if step.1.isTrace then RecordInTrace.RECORD_IN_TRACE
   else RecordInTrace.DONT_RECORD_IN_TRACE,
   { w with mmaps := w.mmaps ++ [rec_], mmap_count := w.mmap_count + 1,
            files_assumed_immutable := files1 })

/-- The KernelMapping rebuilt by read_mapped_region's return (lines 692-694). -/
def kmOfRecord (m : MMapRecord) : KernelMapping :=
  { start := m.start, end_ := m.end_, fsname := m.fsname, device := m.device,
    inode := m.inode, prot := m.prot, flags := m.flags,
    file_offset_bytes := m.file_offset_bytes }

/-- TraceReader::read_mapped_region (lines 595-695), with data requested
and validate = DONT_VALIDATE (the VALIDATE path stats the live filesystem,
outside this model). `current_time_only` selects the CURRENT_TIME_ONLY
time constraint. `some (none, s)` models the empty-mapping return (at end,
or cursor restored on a time mismatch); fatal checks (frameTime <= 0,
negative statSize, negative fileOffsetBytes) are `none`. -/
def read_mapped_region (current_time_only : Bool) (s : ReaderState) :
    Option (Option (KernelMapping × MappedData) × ReaderState) :=
  match s.mmaps with
  | [] => some (none, s)
  | m :: rest =>
    if current_time_only ∧ m.frame_time ≠ s.global_time then
      some (none, s)
    else if m.frame_time ≤ 0 then none
    else
      let s1 := { s with mmaps := rest }
      match m.source with
      | MMapSource.zero =>
        some (some (kmOfRecord m,
          { time := m.frame_time, source := MappedDataSource.SOURCE_ZERO,
            file_name := [], file_size_bytes := m.stat_size, data_offset_bytes := 0 }), s1)
      | MMapSource.trace =>
        some (some (kmOfRecord m,
          { time := m.frame_time, source := MappedDataSource.SOURCE_TRACE,
            file_name := [], file_size_bytes := m.stat_size, data_offset_bytes := 0 }), s1)
      | MMapSource.file backing =>
        if m.stat_size < 0 then none
        else if m.file_offset_bytes < 0 then none
        else
          let resolved :=
            if backing.head? = some 47 then backing
            else s.trace_dir ++ strBytes "/" ++ backing
          some (some (kmOfRecord m,
            { time := m.frame_time, source := MappedDataSource.SOURCE_FILE,
              file_name := resolved, file_size_bytes := m.stat_size,
              data_offset_bytes := m.file_offset_bytes }), s1)

/-- TRACE_VERSION (line 39). -/
def TRACE_VERSION : Nat := 85

/-- EX_DATAERR from sysexits.h: the data-error exit status. -/
def EX_DATAERR : Nat := 65

/-- C isspace bytes skipped by strtol. -/
def isSpaceByte (c : Nat) : Bool :=
  c = 32 ∨ (9 ≤ c ∧ c ≤ 13)

/-- ASCII decimal digit. -/
def isDigitByte (c : Nat) : Bool :=
  48 ≤ c ∧ c ≤ 57

/-- Accumulate leading decimal digits, returning the value and the unread
suffix. -/
def parseDigits : Nat → Bytes → Nat × Bytes
  | acc, [] => (acc, [])
  | acc, c :: rest =>
    if isDigitByte c then parseDigits (acc * 10 + (c - 48)) rest
    else (acc, c :: rest)

/-- strtol(s, &end, 10) on the NUL-terminated version string: skip
whitespace, optional sign, then digits; on no conversion the end pointer
is the start of the string. (Overflow clamping is not modelled; the
claims only involve version numbers below LONG_MAX.) -/
def strtol10 (s : Bytes) : Int × Bytes :=
  let s1 := s.dropWhile isSpaceByte
  match s1 with
  | [] => (0, s)
  | c :: r =>
    if c = 43 ∨ c = 45 then
      match r with
      | [] => (0, s)
      | d :: _ =>
        if isDigitByte d then
          ((if c = 45 then -((parseDigits 0 r).1 : Int) else ((parseDigits 0 r).1 : Int)),
           (parseDigits 0 r).2)
        else (0, s)
    else if isDigitByte c then
      (((parseDigits 0 (c :: r)).1 : Int), (parseDigits 0 (c :: r)).2)
    else (0, s)

/-- Split the version file at the first newline: the version string read
byte-by-byte (lines 933-944) and the remaining header bytes. EOF before a
newline is fatal. -/
def readVersionLine : Bytes → Option (Bytes × Bytes)
  | [] => none
  | c :: rest =>
    if c = 10 then some ([], rest)
    else
      match readVersionLine rest with
      | none => none
      | some (line, tail) => some (c :: line, tail)

/-- Outcome of the version handshake in TraceReader::TraceReader. -/
inductive VersionCheckResult
  /-- The version matched; construction proceeds to decode the packed header. -/
  | ok
  /-- exit(status) after a diagnostic naming the recorded and expected versions
  (lines 950-961). -/
  | exitErr (status : Nat) (recorded : Int) (expected : Int)
  /-- FATAL(): version file unreadable or the version string malformed. -/
  | fatal
  deriving DecidableEq, Repr

/-- The version handshake of TraceReader::TraceReader (lines 933-962):
read the version string up to the newline, strict-parse it with strtol
(trailing garbage is fatal), and exit with EX_DATAERR and a diagnostic
mentioning both versions when the number differs from TRACE_VERSION. -/
def check_version (file : Bytes) : VersionCheckResult :=
  match readVersionLine file with
  | none => VersionCheckResult.fatal
  | some (version_str, _) =>
    let p := strtol10 version_str
    if p.2 ≠ [] then VersionCheckResult.fatal
    else if (TRACE_VERSION : Int) ≠ p.1 then
      VersionCheckResult.exitErr EX_DATAERR p.1 (TRACE_VERSION : Int)
    else VersionCheckResult.ok

/-- Value of a digit string. -/
def digitsVal (ds : Bytes) : Nat :=
  ds.foldl (fun a c => a * 10 + (c - 48)) 0

/-- dir_exists (lines 65-68): an empty path never exists; otherwise ask
the filesystem oracle `fsdirs`. -/
def dir_exists (fsdirs : String → Bool) (d : String) : Bool :=
  !(d.isEmpty) && fsdirs d

/-- default_rr_trace_dir (lines 70-103) as a pure function of the
filesystem oracle and the HOME / XDG_DATA_HOME environment variables
(the static cache only memoizes the same computation). -/
def default_rr_trace_dir (fsdirs : String → Bool) (home xdg_data_home : Option String) :
    String :=
  let dot_dir := match home with
    | some h => h ++ "/.rr"
    | none => ""
  let xdg_dir := match xdg_data_home with
    | some x => x ++ "/rr"
    | none =>
      match home with
      | some h => h ++ "/.local/share/rr"
      | none => ""
  if dir_exists fsdirs xdg_dir then xdg_dir
  else if dir_exists fsdirs dot_dir then dot_dir
  else if !xdg_dir.isEmpty then xdg_dir
  else "/tmp/rr"

/-- trace_save_dir (lines 105-108): _RR_TRACE_DIR overrides everything. -/
def trace_save_dir (fsdirs : String → Bool)
    (rr_trace_dir home xdg_data_home : Option String) : String :=
  match rr_trace_dir with
  | some d => d
  | none => default_rr_trace_dir fsdirs home xdg_data_home

/-- The resolution order exactly as claim C9 states it: $_RR_TRACE_DIR if
set; else $XDG_DATA_HOME/rr if that directory exists; else $HOME/.rr if
that directory exists; else $XDG_DATA_HOME/rr or $HOME/.local/share/rr
when the respective variable is set; else /tmp/rr. -/
def claimC9_resolve (fsdirs : String → Bool)
    (rr_trace_dir home xdg_data_home : Option String) : String :=
  match rr_trace_dir with
  | some d => d
  | none =>
    match xdg_data_home, home with
    | some x, _ =>
      if dir_exists fsdirs (x ++ "/rr") then x ++ "/rr"
      else if (match home with
               | some h => dir_exists fsdirs (h ++ "/.rr")
               | none => false) then
        (match home with | some h => h ++ "/.rr" | none => "")
      else x ++ "/rr"
    | none, some h =>
      if dir_exists fsdirs (h ++ "/.rr") then h ++ "/.rr"
      else h ++ "/.local/share/rr"
    | none, none => "/tmp/rr"

/-- The corrected resolution order: $_RR_TRACE_DIR if set; else the XDG
data directory — $XDG_DATA_HOME/rr when XDG_DATA_HOME is set, else
$HOME/.local/share/rr when HOME is set — if it exists; else $HOME/.rr if
it exists; else that XDG data directory when XDG_DATA_HOME or HOME is
set; else /tmp/rr. -/
def amendedC9_resolve (fsdirs : String → Bool)
    (rr_trace_dir home xdg_data_home : Option String) : String :=
  match rr_trace_dir with
  | some d => d
  | none =>
    let xdg_dir := match xdg_data_home, home with
      | some x, _ => x ++ "/rr"
      | none, some h => h ++ "/.local/share/rr"
      | none, none => ""
    let dot_dir := match home with
      | some h => h ++ "/.rr"
      | none => ""
    if dir_exists fsdirs xdg_dir then xdg_dir
    else if dir_exists fsdirs dot_dir then dot_dir
    else if !xdg_dir.isEmpty then xdg_dir
    else "/tmp/rr"

/-- One frame's worth of recorder activity: the raw writes (tid, data,
addr), generic writes, task-event writes and mapped-region writes issued
while the writer clock sits at this frame's time, followed by the
write_frame call that ticks the clock. -/
structure FramePackage where
  rawWrites : List (Int × Bytes × Nat)
  genericWrites : List Bytes
  taskWrites : List TraceTaskEvent
  mmapWrites : List (MappedRegionFs × KernelMapping × StatBuf × MappingOrigin)
  frame : TraceFrame

/-- Apply one package to the writer: all same-frame record writes, then
the frame itself. -/
def writePackage (p : FramePackage) (w : WriterState) : Option WriterState :=
  match p.taskWrites.foldlM (fun acc e => write_task_event e acc)
      (p.genericWrites.foldl (fun acc d => write_generic d acc)
        (p.rawWrites.foldl (fun acc x => write_raw x.1 x.2.1 x.2.2 acc) w)) with
  | none => none
  | some w3 =>
    some (write_frame p.frame
      (p.mmapWrites.foldl
        (fun acc x => (write_mapped_region x.1 x.2.1 x.2.2.1 x.2.2.2 acc).2) w3))

/-- Run a whole recording. -/
def runPackages : List FramePackage → WriterState → Option WriterState
  | [], w => some w
  | p :: ps, w =>
    match writePackage p w with
    | none => none
    | some w1 => runPackages ps w1

/-- A frame the reader can reproduce exactly: frames without exec info
carry default register state (nothing else is serialized for them), and
exec-info frames with no extra-register data carry format NONE (read_frame
asserts this and rebuilds a default ExtraRegisters). -/
def wfFrame (f : TraceFrame) : Prop :=
  (f.ev.has_exec_info = false → f.regs = Registers.dflt ∧ f.extra_regs = ExtraRegisters.dflt) ∧
  (f.extra_regs.data = [] → f.extra_regs.format = EXTRA_REGS_NONE)

/-- A task event the reader accepts: a real variant (not the NONE
sentinel) and positive tids (i32_to_tid). -/
def wfTask (e : TraceTaskEvent) : Prop :=
  0 < e.tid ∧
  match e.variant with
  | some (TaskVariant.clone p o _) => 0 < p ∧ 0 < o
  | some _ => True
  | none => False

/-- A mapped-region write the reader accepts: nonnegative stat size and
file offset (read_mapped_region treats negatives as fatal). -/
def wfMmapWrite (x : MappedRegionFs × KernelMapping × StatBuf × MappingOrigin) : Prop :=
  0 ≤ x.2.2.1.st_size ∧ 0 ≤ x.2.1.file_offset_bytes

/-- Well-formedness of a recording relative to the writer clock `t` at its
start: each package's frame carries the clock value at which it is
written (read_frame asserts this on replay), and every record passes the
reader's validity checks. -/
def wfPackages : Int → List FramePackage → Prop
  | _, [] => True
  | t, p :: ps =>
    p.frame.time = t ∧ wfFrame p.frame ∧
    (∀ e ∈ p.taskWrites, wfTask e) ∧
    (∀ x ∈ p.mmapWrites, wfMmapWrite x) ∧
    wfPackages (t + 1) ps

/-- The EVENTS record write_frame produces for a frame. -/
def encodeFrame (f : TraceFrame) : EventsRecord :=
  { basic := { global_time := f.time, tid := f.tid, ev := f.ev,
               ticks := f.ticks, monotonic_sec := f.monotonic_sec },
    execInfo :=
      if f.ev.has_exec_info then
        some { arch_tag := f.regs.arch, reg_block := f.regs.blob,
               extra_reg_format := f.extra_regs.format,
               extra_reg_data := f.extra_regs.data }
      else none }

/-- The RAW_DATA_HEADER records produced by a package's raw writes at time t. -/
def rawHeadersOf (t : Int) (rw : List (Int × Bytes × Nat)) : List RawHeaderRecord :=
  rw.map (fun x => { time := t, tid := x.1, addr := x.2.2, len := x.2.1.length })

/-- The RAW_DATA payload bytes produced by a package's raw writes. -/
def rawPayloadOf (rw : List (Int × Bytes × Nat)) : Bytes :=
  (rw.map (fun x => x.2.1)).flatten

/-- The GENERIC records produced by a package's generic writes at time t. -/
def genericsOf (t : Int) (gw : List Bytes) : List GenericRecord :=
  gw.map (fun d => { time := t, data := d })

/-- The TASKS records produced by a package's task writes at time t (the
variant is total on well-formed events; the NONE sentinel contributes a
dummy that well-formedness rules out). -/
def tasksOf (t : Int) (tw : List TraceTaskEvent) : List TaskEventRecord :=
  tw.map (fun e => { frame_time := t, tid := e.tid,
                     variant := e.variant.getD (TaskVariant.exit 0) })

/-- All EVENTS records of a recording. -/
def packagesEvents (ps : List FramePackage) : List EventsRecord :=
  ps.map (fun p => encodeFrame p.frame)

/-- All RAW_DATA_HEADER records of a recording starting at clock t. -/
def packagesRawHeaders : Int → List FramePackage → List RawHeaderRecord
  | _, [] => []
  | t, p :: ps => rawHeadersOf t p.rawWrites ++ packagesRawHeaders (t + 1) ps

/-- All RAW_DATA bytes of a recording. -/
def packagesRawData : List FramePackage → Bytes
  | [] => []
  | p :: ps => rawPayloadOf p.rawWrites ++ packagesRawData ps

/-- All GENERIC records of a recording starting at clock t. -/
def packagesGenerics : Int → List FramePackage → List GenericRecord
  | _, [] => []
  | t, p :: ps => genericsOf t p.genericWrites ++ packagesGenerics (t + 1) ps

/-- All TASKS records of a recording starting at clock t. -/
def packagesTasks : Int → List FramePackage → List TaskEventRecord
  | _, [] => []
  | t, p :: ps => tasksOf t p.taskWrites ++ packagesTasks (t + 1) ps

/-- All task events written in a recording, in order. -/
def packagesTaskEvents (ps : List FramePackage) : List TraceTaskEvent :=
  (ps.map (fun p => p.taskWrites)).flatten

/-- All kernel mappings written in a recording, in order. -/
def packagesKms (ps : List FramePackage) : List KernelMapping :=
  (ps.map (fun p => p.mmapWrites.map (fun x => x.2.1))).flatten

/-- The RawData the reader should reproduce for one raw write. -/
def rawDataOf (x : Int × Bytes × Nat) : RawData :=
  { rec_tid := x.1, addr := x.2.2, data := x.2.1 }

/-- Repeatedly call read_raw_data_for_frame, n times, all of which must
return true (the replayer consumes this frame's raw records). -/
def readRawsN : Nat → TraceFrame → ReaderState → Option (List RawData × ReaderState)
  | 0, _, s => some ([], s)
  | n + 1, f, s =>
    match read_raw_data_for_frame f s with
    | none => none
    | some (none, _) => none
    | some (some d, s1) =>
      match readRawsN n f s1 with
      | none => none
      | some (ds, s2) => some (d :: ds, s2)

/-- Repeatedly call read_generic_for_frame, n times, all returning true. -/
def readGenericsN : Nat → TraceFrame → ReaderState → Option (List Bytes × ReaderState)
  | 0, _, s => some ([], s)
  | n + 1, f, s =>
    match read_generic_for_frame f s with
    | none => none
    | some (none, _) => none
    | some (some d, s1) =>
      match readGenericsN n f s1 with
      | none => none
      | some (ds, s2) => some (d :: ds, s2)

/-- Read n task events in sequence. -/
def readTasksN : Nat → ReaderState → Option (List TraceTaskEvent × ReaderState)
  | 0, s => some ([], s)
  | n + 1, s =>
    match read_task_event s with
    | none => none
    | some (e, s1) =>
      match readTasksN n s1 with
      | none => none
      | some (es, s2) => some (e :: es, s2)

/-- Read n mapped regions in sequence (no time constraint), all found. -/
def readMmapsN : Nat → ReaderState → Option (List (KernelMapping × MappedData) × ReaderState)
  | 0, s => some ([], s)
  | n + 1, s =>
    match read_mapped_region false s with
    | none => none
    | some (none, _) => none
    | some (some km, s1) =>
      match readMmapsN n s1 with
      | none => none
      | some (kms, s2) => some (km :: kms, s2)

/-- The canonical replay of the EVENTS / RAW_DATA / GENERIC spine: for
each package, read_frame, then consume the frame's raw records and
generic records with the for_frame readers. -/
def replayPackages : List FramePackage → ReaderState →
    Option (List (TraceFrame × List RawData × List Bytes) × ReaderState)
  | [], s => some ([], s)
  | p :: ps, s =>
    match read_frame s with
    | none => none
    | some (f, s1) =>
      match readRawsN p.rawWrites.length f s1 with
      | none => none
      | some (rs, s2) =>
        match readGenericsN p.genericWrites.length f s2 with
        | none => none
        | some (gs, s3) =>
          match replayPackages ps s3 with
          | none => none
          | some (out, s4) => some ((f, rs, gs) :: out, s4)

/-- What the replay should reproduce for one package. -/
def expectedPackage (p : FramePackage) : TraceFrame × List RawData × List Bytes :=
  (p.frame, p.rawWrites.map rawDataOf, p.genericWrites)

/-- On success, read_frame consumes exactly one EVENTS record and ticks
the clock; no other reader state changes. -/
theorem read_frame_state (s : ReaderState) (f : TraceFrame) (s1 : ReaderState)
    (h : read_frame s = some (f, s1)) :
    s1 = { s with events := s.events.tail, global_time := s.global_time + 1 } ∧
    f.time = s.global_time + 1 ∧ s.events ≠ [] := by
  unfold read_frame at h
  cases hs : s.events with
  | nil => rw [hs] at h; exact absurd h (by simp)
  | cons r rest =>
    rw [hs] at h
    simp only at h
    split at h
    · exact absurd h (by simp)
    · next f0 hf0 =>
      split at h
      · next hft =>
        simp only [Option.some.injEq, Prod.mk.injEq] at h
        obtain ⟨hf, hs1⟩ := h
        subst hf
        refine ⟨hs1.symm ▸ rfl, ?_, by simp [hs]⟩
        omega
      · exact absurd h (by simp)

/-- Reading n frames adds exactly n to the clock. -/
theorem read_frames_clock :
    ∀ (n : Nat) (s : ReaderState) (out : List TraceFrame) (s1 : ReaderState),
      read_frames n s = some (out, s1) → s1.global_time = s.global_time + n := by
  intro n
  induction n with
  | zero =>
    intro s out s1 h
    simp only [read_frames, Option.some.injEq, Prod.mk.injEq] at h
    rw [← h.2]
    omega
  | succ n ih =>
    intro s out s1 h
    unfold read_frames at h
    split at h
    · exact absurd h (by simp)
    · next f s2 hr =>
      split at h
      · exact absurd h (by simp)
      · next fs s3 hrs =>
        simp only [Option.some.injEq, Prod.mk.injEq] at h
        obtain ⟨-, heq⟩ := h
        have h1 := (read_frame_state s f s2 hr).1
        have h2 := ih s2 fs s3 hrs
        rw [← heq, h2, h1]
        simp only []
        omega

/-- C4: a newly constructed TraceReader has global_time 0; every
successful read_frame advances global_time by exactly one and returns a
frame whose decoded time equals the advanced clock (the assert at line
343); hence after reading N frames the reader's global_time equals N. -/
theorem C4_reader_clock :
    (∀ tc dir ok, (TraceReader.ofTrace tc dir ok).global_time = 0) ∧
    (∀ s f s1, read_frame s = some (f, s1) →
       s1.global_time = s.global_time + 1 ∧ f.time = s1.global_time) ∧
    (∀ (n : Nat) (tc : TraceContents) (dir : Bytes) (ok : Bool) out s1,
       read_frames n (TraceReader.ofTrace tc dir ok) = some (out, s1) →
       s1.global_time = n) := by
  refine ⟨fun tc dir ok => rfl, fun s f s1 h => ?_, fun n tc dir ok out s1 h => ?_⟩
  · obtain ⟨h1, h2, -⟩ := read_frame_state s f s1 h
    rw [h1]
    exact ⟨rfl, h2⟩
  · have := read_frames_clock n (TraceReader.ofTrace tc dir ok) out s1 h
    rw [this]
    simp [TraceReader.ofTrace]

/-- C7: when the next read_frame succeeds, peek_frame returns that very
frame while leaving the whole reader state (in particular global_time and
the EVENTS cursor) unchanged, and the subsequent read_frame advances
global_time exactly once. -/
theorem C7_peek_frame (s : ReaderState) (f : TraceFrame) (s1 : ReaderState)
    (h : read_frame s = some (f, s1)) :
    peek_frame s = some (f, s) ∧ s1.global_time = s.global_time + 1 := by
  obtain ⟨hs1, -, hne⟩ := read_frame_state s f s1 h
  constructor
  · unfold peek_frame TraceReader.at_end
    have : s.events.isEmpty = false := by
      cases he : s.events with
      | nil => exact absurd he hne
      | cons a l => simp [he]
    rw [this]
    simp only [Bool.false_eq_true, if_false, h]
    rw [hs1]
  · rw [hs1]

/-- C10: when the EVENTS substream is exhausted, peek_frame returns the
default-constructed frame without failing and leaves the reader state
(global_time and the EVENTS cursor included) unchanged. -/
theorem C10_peek_at_end (s : ReaderState) (h : s.events = []) :
    peek_frame s = some (TraceFrame.dflt, s) := by
  unfold peek_frame TraceReader.at_end
  rw [h]
  rfl

/-- A frame used by concrete witnesses. -/
def wFrame1 : TraceFrame :=
  { time := 1, tid := 42, ev := { code := 3, has_exec_info := false, arch := Arch.x86 },
    ticks := 0, monotonic_sec := 0, regs := Registers.dflt, extra_regs := ExtraRegisters.dflt }

/-- A second witness frame at time 2. -/
def wFrame2 : TraceFrame :=
  { wFrame1 with time := 2 }

/-- A concrete two-frame trace. -/
def wTrace : TraceContents :=
  { events := [encodeFrame wFrame1, encodeFrame wFrame2], tasks := [], mmaps := [],
    rawHeader := [], rawData := [], generics := [] }

/-- The reader on wTrace. -/
def wReader : ReaderState :=
  TraceReader.ofTrace wTrace [] true

/-- The reader state after both frames of wTrace are consumed. -/
def wReaderAfter2 : ReaderState :=
  { events := [], tasks := [], mmaps := [], rawHeader := [], rawData := [],
    generics := [], global_time := 2, trace_dir := [], xsave_ok := true }

/-- Witness for C4 at a concrete two-frame trace. -/
theorem C4_witness : wReaderAfter2.global_time = 2 :=
  C4_reader_clock.2.2 2 wTrace [] true [wFrame1, wFrame2] wReaderAfter2 (by decide)

/-- The reader state after one frame of wTrace is consumed. -/
def wReaderAfter1 : ReaderState :=
  { events := [encodeFrame wFrame2], tasks := [], mmaps := [], rawHeader := [],
    rawData := [], generics := [], global_time := 1, trace_dir := [], xsave_ok := true }

/-- Witness for C7 at a concrete reader. -/
theorem C7_witness :
    peek_frame wReader = some (wFrame1, wReader) ∧
    wReaderAfter1.global_time = wReader.global_time + 1 :=
  C7_peek_frame wReader wFrame1 wReaderAfter1 (by decide)

/-- Witness for C10 at a concrete exhausted reader. -/
theorem C10_witness :
    peek_frame wReaderAfter2 = some (TraceFrame.dflt, wReaderAfter2) :=
  C10_peek_at_end wReaderAfter2 (by decide)

/-- The MMAPS record write_mapped_region emits, as a function of the
clock, the mapping, the stat block and the chosen source. -/
def mmapRecordOf (t : Int) (km : KernelMapping) (st : StatBuf) (src : MMapSource) :
    MMapRecord :=
  { frame_time := t, start := km.start, end_ := km.end_, fsname := km.fsname,
    device := km.device, inode := km.inode, prot := km.prot, flags := km.flags,
    file_offset_bytes := km.file_offset_bytes, stat_mode := st.st_mode,
    stat_uid := st.st_uid, stat_gid := st.st_gid, stat_size := st.st_size,
    stat_mtime := st.st_mtime, source := src }

/-- The classification ladder exactly as claim C2 states it, first
matching rule winning: (1) REMAP or PATCH origin gives Zero; (2) fsname
beginning with "/SYSV" gives Trace; (3) SYSCALL origin with inode 0 or
fsname "/dev/zero (deleted)" gives Zero; (4) RR_BUFFER origin gives Zero;
(5) a MAP_PRIVATE mapping with a successful file clone gives File(clone
name); (6) should_copy_mmap_region true with (device, inode) not in
files_assumed_immutable gives Trace; (7) otherwise File (clone name, else
hardlink name, else the original path). -/
def claimC2_classify (fs : MappedRegionFs) (km : KernelMapping) (st : StatBuf)
    (origin : MappingOrigin) (files : List (Nat × Nat)) (mmap_count : Nat) :
    MMapSource :=
  if origin = MappingOrigin.REMAP_MAPPING ∨ origin = MappingOrigin.PATCH_MAPPING then
    MMapSource.zero
  else if sysvName.isPrefixOf km.fsname then
    MMapSource.trace
  else if origin = MappingOrigin.SYSCALL_MAPPING ∧
          (km.inode = 0 ∨ km.fsname = devZeroDeleted) then
    MMapSource.zero
  else if origin = MappingOrigin.RR_BUFFER_MAPPING then
    MMapSource.zero
  else if km.flags &&& MAP_PRIVATE ≠ 0 ∧ fs.clone1 then
    MMapSource.file (clone_file_name mmap_count km.fsname)
  else if fs.should_copy ∧ (st.st_dev, st.st_ino) ∉ files then
    MMapSource.trace
  else if fs.clone2 then
    MMapSource.file (clone_file_name mmap_count km.fsname)
  else
    MMapSource.file (try_hardlink_file fs.hardlink mmap_count km.fsname)

/-- C2: write_mapped_region emits exactly the record whose source is
determined by the first matching rule of the claimed ladder, and returns
RECORD_IN_TRACE iff that source is Trace. -/
theorem C2_classification (fs : MappedRegionFs) (km : KernelMapping) (st : StatBuf)
    (origin : MappingOrigin) (w : WriterState) :
    (write_mapped_region fs km st origin w).2.mmaps =
      w.mmaps ++ [mmapRecordOf w.global_time km st
        (claimC2_classify fs km st origin w.files_assumed_immutable w.mmap_count)] ∧
    ((write_mapped_region fs km st origin w).1 = RecordInTrace.RECORD_IN_TRACE ↔
      claimC2_classify fs km st origin w.files_assumed_immutable w.mmap_count =
        MMapSource.trace) := by
  cases h1 : fs.clone1 <;> cases h2 : fs.clone2 <;>
    unfold write_mapped_region classify_step claimC2_classify mmapRecordOf try_clone_file <;>
    simp only [h1, h2, Bool.false_eq_true, and_false, if_false, if_true,
      Option.isSome_some, Option.isSome_none, and_true] <;>
    split_ifs <;>
    simp_all [MMapSource.isTrace]

/-- Reaching the final fallback rule of write_mapped_region: none of the
six earlier guards (lines 512-527) applies. -/
def reaches_fallback (fs : MappedRegionFs) (km : KernelMapping) (st : StatBuf)
    (origin : MappingOrigin) (w : WriterState) : Prop :=
  ¬(origin = MappingOrigin.REMAP_MAPPING ∨ origin = MappingOrigin.PATCH_MAPPING) ∧
  ¬(sysvName.isPrefixOf km.fsname = true) ∧
  ¬(origin = MappingOrigin.SYSCALL_MAPPING ∧
      (km.inode = 0 ∨ km.fsname = devZeroDeleted)) ∧
  origin ≠ MappingOrigin.RR_BUFFER_MAPPING ∧
  ¬(km.flags &&& MAP_PRIVATE ≠ 0 ∧ fs.clone1 = true) ∧
  ¬(fs.should_copy = true ∧ (st.st_dev, st.st_ino) ∉ w.files_assumed_immutable)

/-- try_clone_file succeeds exactly when its external outcome does. -/
theorem try_clone_file_isSome (ok : Bool) (c : Nat) (fn : Bytes) :
    (try_clone_file ok c fn).isSome = ok := by
  unfold try_clone_file
  cases ok <;> simp

/-- Membership survives insertPair. -/
theorem mem_insertPair (p q : Nat × Nat) (l : List (Nat × Nat)) (h : p ∈ l) :
    p ∈ insertPair q l := by
  unfold insertPair
  split
  · exact h
  · exact List.mem_append_left _ h

/-- The inserted pair is a member after insertPair. -/
theorem mem_insertPair_self (p : Nat × Nat) (l : List (Nat × Nat)) :
    p ∈ insertPair p l := by
  unfold insertPair
  split
  · assumption
  · simp

/-- One write_mapped_region call never removes entries from
files_assumed_immutable. -/
theorem files_grow_mapped (fs : MappedRegionFs) (km : KernelMapping) (st : StatBuf)
    (origin : MappingOrigin) (w : WriterState) (p : Nat × Nat)
    (hp : p ∈ w.files_assumed_immutable) :
    p ∈ (write_mapped_region fs km st origin w).2.files_assumed_immutable := by
  unfold write_mapped_region
  cases hstep : classify_step fs km st origin w.files_assumed_immutable w.mmap_count with
  | mk src b =>
    simp only [hstep]
    cases b
    · simpa using hp
    · simpa using mem_insertPair _ _ _ hp

/-- When no earlier guard applies, classify_step runs the fallback:
clone retry, else hardlink, inserting into the cache only on clone failure. -/
theorem classify_step_of_fallback (fs : MappedRegionFs) (km : KernelMapping)
    (st : StatBuf) (origin : MappingOrigin) (w : WriterState)
    (h : reaches_fallback fs km st origin w) :
    classify_step fs km st origin w.files_assumed_immutable w.mmap_count =
      (match try_clone_file fs.clone2 w.mmap_count km.fsname with
       | some name => (MMapSource.file name, false)
       | none =>
         (MMapSource.file (try_hardlink_file fs.hardlink w.mmap_count km.fsname),
          true)) := by
  obtain ⟨g1, g2, g3, g4, g5, g6⟩ := h
  have g5a : ¬(km.flags &&& MAP_PRIVATE ≠ 0 ∧
      (try_clone_file fs.clone1 w.mmap_count km.fsname).isSome = true) := by
    rw [try_clone_file_isSome]
    exact g5
  unfold classify_step
  rw [if_neg g1, if_neg g2, if_neg g3, if_neg g4, if_neg g5a, if_neg g6]

/-- The files_assumed_immutable cache after one write_mapped_region call,
explicitly. -/
theorem write_mapped_region_files (fs : MappedRegionFs) (km : KernelMapping)
    (st : StatBuf) (origin : MappingOrigin) (w : WriterState) :
    (write_mapped_region fs km st origin w).2.files_assumed_immutable =
      (if (classify_step fs km st origin w.files_assumed_immutable w.mmap_count).2 then
        insertPair (st.st_dev, st.st_ino) w.files_assumed_immutable
      else w.files_assumed_immutable) := by
  unfold write_mapped_region
  cases hstep : classify_step fs km st origin w.files_assumed_immutable w.mmap_count with
  | mk src b => cases b <;> simp [hstep]

/-- Raw writes never touch the immutability cache. -/
theorem files_foldl_raw (l : List (Int × Bytes × Nat)) (w : WriterState) :
    (l.foldl (fun acc x => write_raw x.1 x.2.1 x.2.2 acc) w).files_assumed_immutable =
      w.files_assumed_immutable := by
  induction l generalizing w with
  | nil => rfl
  | cons x xs ih => rw [List.foldl_cons, ih]; rfl

/-- Generic writes never touch the immutability cache. -/
theorem files_foldl_generic (l : List Bytes) (w : WriterState) :
    (l.foldl (fun acc d => write_generic d acc) w).files_assumed_immutable =
      w.files_assumed_immutable := by
  induction l generalizing w with
  | nil => rfl
  | cons x xs ih => rw [List.foldl_cons, ih]; rfl

/-- Task-event writes never touch the immutability cache. -/
theorem files_foldlM_tasks (l : List TraceTaskEvent) (w w1 : WriterState)
    (h : l.foldlM (fun acc e => write_task_event e acc) w = some w1) :
    w1.files_assumed_immutable = w.files_assumed_immutable := by
  induction l generalizing w with
  | nil =>
    simp only [List.foldlM_nil, Option.pure_def, Option.some.injEq] at h
    rw [← h]
  | cons e es ih =>
    rw [List.foldlM_cons] at h
    cases hw : write_task_event e w with
    | none => rw [hw] at h; exact absurd h (by simp)
    | some w2 =>
      rw [hw] at h
      simp only [Option.bind_eq_bind, Option.some_bind] at h
      rw [ih w2 h]
      unfold write_task_event at hw
      split at hw
      · exact absurd hw (by simp)
      · simp only [Option.some.injEq] at hw
        rw [← hw]

/-- Mapped-region writes only grow the immutability cache. -/
theorem files_foldl_mmaps
    (l : List (MappedRegionFs × KernelMapping × StatBuf × MappingOrigin))
    (w : WriterState) (p : Nat × Nat) (hp : p ∈ w.files_assumed_immutable) :
    p ∈ (l.foldl (fun acc x =>
          (write_mapped_region x.1 x.2.1 x.2.2.1 x.2.2.2 acc).2) w).files_assumed_immutable := by
  induction l generalizing w with
  | nil => exact hp
  | cons x xs ih =>
    rw [List.foldl_cons]
    exact ih _ (files_grow_mapped _ _ _ _ _ _ hp)

/-- One package only grows the immutability cache. -/
theorem files_grow_writePackage (p : FramePackage) (w w1 : WriterState)
    (h : writePackage p w = some w1) (q : Nat × Nat)
    (hq : q ∈ w.files_assumed_immutable) : q ∈ w1.files_assumed_immutable := by
  unfold writePackage at h
  split at h
  · exact absurd h (by simp)
  · next w3 ht =>
    simp only [Option.some.injEq] at h
    rw [← h]
    show q ∈ (write_frame _ _).files_assumed_immutable
    unfold write_frame
    simp only []
    refine files_foldl_mmaps _ _ _ ?_
    rw [files_foldlM_tasks _ _ _ ht, files_foldl_generic, files_foldl_raw]
    exact hq

/-- A whole recording only grows the immutability cache. -/
theorem files_grow_runPackages (ps : List FramePackage) (w w1 : WriterState)
    (h : runPackages ps w = some w1) (q : Nat × Nat)
    (hq : q ∈ w.files_assumed_immutable) : q ∈ w1.files_assumed_immutable := by
  induction ps generalizing w with
  | nil =>
    simp only [runPackages, Option.some.injEq] at h
    rw [← h]
    exact hq
  | cons p ps ih =>
    unfold runPackages at h
    split at h
    · exact absurd h (by simp)
    · next w2 hw2 => exact ih w2 h (files_grow_writePackage p w w2 hw2 q hq)

/-- C3 (amended): when write_mapped_region reaches the final fallback rule,
(st_dev, st_ino) is inserted into files_assumed_immutable exactly when the
fallback's clone retry fails (a successful retry leaves the cache
untouched); and the cache only ever grows, both across single calls and
across a whole recording. -/
theorem C3_files_assumed_immutable :
    (∀ fs km st origin w, reaches_fallback fs km st origin w →
       ((fs.clone2 = false →
          (st.st_dev, st.st_ino) ∈
            (write_mapped_region fs km st origin w).2.files_assumed_immutable) ∧
        (fs.clone2 = true →
          (write_mapped_region fs km st origin w).2.files_assumed_immutable =
            w.files_assumed_immutable))) ∧
    (∀ fs km st origin w p, p ∈ w.files_assumed_immutable →
       p ∈ (write_mapped_region fs km st origin w).2.files_assumed_immutable) ∧
    (∀ ps w w1, runPackages ps w = some w1 →
       ∀ p ∈ w.files_assumed_immutable, p ∈ w1.files_assumed_immutable) := by
  refine ⟨fun fs km st origin w h => ?_,
          fun fs km st origin w p hp => files_grow_mapped fs km st origin w p hp,
          fun ps w w1 h p hp => files_grow_runPackages ps w w1 h p hp⟩
  have hc := classify_step_of_fallback fs km st origin w h
  constructor
  · intro h2
    rw [write_mapped_region_files, hc]
    simp only [try_clone_file, h2, Bool.false_eq_true, if_false]
    exact mem_insertPair_self _ _
  · intro h2
    rw [write_mapped_region_files, hc]
    simp [try_clone_file, h2]

/-- The external outcomes of the C3 counterexample: the fallback's clone
retry succeeds. -/
def c3fs : MappedRegionFs :=
  { clone1 := false, clone2 := true, hardlink := false, should_copy := false }

/-- The mapping of the C3 counterexample. -/
def c3km : KernelMapping :=
  { start := 4096, end_ := 8192, fsname := strBytes "/foo", device := 9,
    inode := 3, prot := 1, flags := 2, file_offset_bytes := 0 }

/-- The stat block of the C3 counterexample. -/
def c3st : StatBuf :=
  { st_dev := 5, st_ino := 7, st_mode := 0, st_uid := 0, st_gid := 0,
    st_size := 0, st_mtime := 0 }

/-- Counterexample to C3 as stated: this call reaches the final fallback
rule, yet (st_dev, st_ino) is not inserted into files_assumed_immutable,
because the fallback's clone retry succeeded. -/
theorem C3_counterexample :
    reaches_fallback c3fs c3km c3st MappingOrigin.EXEC_MAPPING TraceWriter.init ∧
    (c3st.st_dev, c3st.st_ino) ∉
      (write_mapped_region c3fs c3km c3st MappingOrigin.EXEC_MAPPING
        TraceWriter.init).2.files_assumed_immutable := by
  constructor
  · unfold reaches_fallback
    decide
  · decide

/-- Witness for the amended C3 at a concrete fallback call whose clone
retry fails: the pair is inserted. -/
theorem C3_witness :
    (c3st.st_dev, c3st.st_ino) ∈
      (write_mapped_region { c3fs with clone2 := false } c3km c3st
        MappingOrigin.EXEC_MAPPING TraceWriter.init).2.files_assumed_immutable :=
  (C3_files_assumed_immutable.1 { c3fs with clone2 := false } c3km c3st
    MappingOrigin.EXEC_MAPPING TraceWriter.init (by unfold reaches_fallback; decide)).1 rfl

/-- The filesystem of the C9 counterexample: both $HOME/.local/share/rr
and $HOME/.rr exist. -/
def c9fs : String → Bool :=
  fun d => d = "/home/u/.local/share/rr" || d = "/home/u/.rr"

/-- Counterexample to C9 as stated: with XDG_DATA_HOME unset, HOME set,
and both $HOME/.local/share/rr and $HOME/.rr existing, the code resolves
to $HOME/.local/share/rr (it tests the xdg fallback directory first,
lines 82-94) while the claimed order resolves to $HOME/.rr. -/
theorem C9_counterexample :
    trace_save_dir c9fs none (some "/home/u") none = "/home/u/.local/share/rr" ∧
    claimC9_resolve c9fs none (some "/home/u") none = "/home/u/.rr" ∧
    trace_save_dir c9fs none (some "/home/u") none ≠
      claimC9_resolve c9fs none (some "/home/u") none := by
  refine ⟨by decide, by decide, by decide⟩

/-- C9 (amended): the trace root is $_RR_TRACE_DIR if set; else the XDG
data directory ($XDG_DATA_HOME/rr when XDG_DATA_HOME is set, else
$HOME/.local/share/rr when HOME is set) if it exists; else $HOME/.rr if
it exists; else that XDG data directory when XDG_DATA_HOME or HOME is
set; else /tmp/rr. -/
theorem C9_trace_dir_resolution (fsdirs : String → Bool)
    (rr_trace_dir home xdg_data_home : Option String) :
    trace_save_dir fsdirs rr_trace_dir home xdg_data_home =
      amendedC9_resolve fsdirs rr_trace_dir home xdg_data_home := by
  cases rr_trace_dir with
  | some d => rfl
  | none =>
    cases home <;> cases xdg_data_home <;>
      simp [trace_save_dir, default_rr_trace_dir, amendedC9_resolve]

/-- Reading the version line of a file consisting of a newline-free
prefix, a newline, and a tail yields exactly that prefix and tail. -/
theorem readVersionLine_append (ds tail : Bytes) (h : ∀ c ∈ ds, c ≠ 10) :
    readVersionLine (ds ++ 10 :: tail) = some (ds, tail) := by
  induction ds with
  | nil => simp [readVersionLine]
  | cons c cs ih =>
    have hc : c ≠ 10 := h c (by simp)
    have ih2 := ih (fun x hx => h x (by simp [hx]))
    simp [readVersionLine, hc, ih2]

/-- parseDigits consumes an all-digit string entirely. -/
theorem parseDigits_all (ds : Bytes) (hd : ∀ c ∈ ds, isDigitByte c = true) :
    ∀ acc, parseDigits acc ds = (ds.foldl (fun a c => a * 10 + (c - 48)) acc, []) := by
  induction ds with
  | nil => intro acc; rfl
  | cons c cs ih =>
    intro acc
    have hc := hd c (by simp)
    have ih2 := ih (fun x hx => hd x (by simp [hx]))
    simp only [parseDigits, hc, if_true, List.foldl_cons]
    exact ih2 _

/-- strtol on a nonempty all-digit string: the digits' value, everything
consumed. -/
theorem strtol10_digits (ds : Bytes) (hne : ds ≠ [])
    (hd : ∀ c ∈ ds, isDigitByte c = true) :
    strtol10 ds = ((digitsVal ds : Int), []) := by
  cases ds with
  | nil => exact absurd rfl hne
  | cons c cs =>
    have hc := hd c (by simp)
    have hc2 : 48 ≤ c ∧ c ≤ 57 := by
      unfold isDigitByte at hc
      exact of_decide_eq_true hc
    have hspace : ¬(isSpaceByte c = true) := by
      unfold isSpaceByte
      simp only [decide_eq_true_eq, not_or, not_and]
      omega
    have hdw : (c :: cs).dropWhile isSpaceByte = c :: cs := by
      rw [List.dropWhile_cons]
      simp [hspace]
    have hsign : ¬(c = 43 ∨ c = 45) := by omega
    unfold strtol10
    simp only [hdw, hsign, if_false, hc, if_true]
    rw [parseDigits_all (c :: cs) hd 0]
    rfl

/-- C5: the version handshake on a trace whose version file records the
decimal number v followed by a newline succeeds exactly when v equals
TRACE_VERSION (85) and otherwise exits with the data-error status
EX_DATAERR (65) and a diagnostic carrying both the recorded and the
expected version. -/
theorem C5_version_check (ds tail : Bytes) (hne : ds ≠ [])
    (hd : ∀ c ∈ ds, isDigitByte c = true) :
    check_version (ds ++ 10 :: tail) =
      (if (digitsVal ds : Int) = (TRACE_VERSION : Int) then VersionCheckResult.ok
       else VersionCheckResult.exitErr EX_DATAERR (digitsVal ds) (TRACE_VERSION : Int)) := by
  have h10 : ∀ c ∈ ds, c ≠ 10 := by
    intro c hcm
    have := hd c hcm
    unfold isDigitByte at this
    have h2 := of_decide_eq_true this
    omega
  unfold check_version
  rw [readVersionLine_append ds tail h10]
  simp only []
  rw [strtol10_digits ds hne hd]
  rw [if_neg (show ¬(([] : Bytes) ≠ []) by simp)]
  by_cases hv : (digitsVal ds : Int) = (TRACE_VERSION : Int)
  · rw [if_neg (show ¬((TRACE_VERSION : Int) ≠ (digitsVal ds : Int)) by simp [hv]),
       if_pos hv]
  · rw [if_pos (show (TRACE_VERSION : Int) ≠ (digitsVal ds : Int) from
        fun hx => hv hx.symm), if_neg hv]

/-- Witness for C5: a version file recording "1" exits with status 65 and
a diagnostic carrying versions 1 and 85 (scenario S4 of the spec). -/
theorem C5_witness :
    check_version [49, 10] = VersionCheckResult.exitErr 65 1 85 := by
  rw [show ([49, 10] : Bytes) = [49] ++ 10 :: [] from rfl,
     C5_version_check [49] [] (by decide) (by decide)]
  decide

/-- C6: for the current frame (a frame whose time is the reader's clock,
the only way the replayer calls it) over a well-paired raw stream,
read_raw_data_for_frame returns true exactly when the next
RAW_DATA_HEADER record's time equals the frame's time; a false return
leaves the reader state (both raw substreams included) untouched; and a
next header older than the frame is an assertion failure. -/
theorem C6_raw_for_frame (f : TraceFrame) (s : ReaderState)
    (hcur : f.time = s.global_time)
    (hpair : ∀ h rest, s.rawHeader = h :: rest → h.len ≤ s.rawData.length) :
    ((∃ d s1, read_raw_data_for_frame f s = some (some d, s1)) ↔
       (∃ h rest, s.rawHeader = h :: rest ∧ h.time = f.time)) ∧
    (∀ s1, read_raw_data_for_frame f s = some (none, s1) → s1 = s) ∧
    (∀ h rest, s.rawHeader = h :: rest → h.time < f.time →
       read_raw_data_for_frame f s = none) := by
  refine ⟨⟨?_, ?_⟩, ?_, ?_⟩
  · rintro ⟨d, s1, hd⟩
    cases hs : s.rawHeader with
    | nil =>
      simp only [read_raw_data_for_frame, hs] at hd
      exact absurd hd (by simp)
    | cons h rest =>
      refine ⟨h, rest, hs ▸ rfl, ?_⟩
      by_contra hne
      rcases lt_or_gt_of_ne hne with hlt | hgt
      · simp only [read_raw_data_for_frame, hs, if_pos hlt] at hd
        exact absurd hd (by simp)
      · simp only [read_raw_data_for_frame, hs] at hd
        rw [if_neg (by omega), if_pos hgt] at hd
        simp at hd
  · rintro ⟨h, rest, hs, ht⟩
    have hlen := hpair h rest hs
    refine ⟨{ rec_tid := h.tid, addr := h.addr, data := s.rawData.take h.len },
            { s with rawHeader := rest, rawData := s.rawData.drop h.len }, ?_⟩
    simp only [read_raw_data_for_frame, read_raw_data, hs]
    rw [if_neg (by omega), if_neg (by omega), if_pos (by rw [ht, hcur]), if_pos hlen]
  · intro s1 hd
    cases hs : s.rawHeader with
    | nil =>
      simp only [read_raw_data_for_frame, hs, Option.some.injEq, Prod.mk.injEq] at hd
      exact hd.2.symm
    | cons h rest =>
      simp only [read_raw_data_for_frame, hs] at hd
      split at hd
      · exact absurd hd (by simp)
      · split at hd
        · simp only [Option.some.injEq, Prod.mk.injEq] at hd
          exact hd.2.symm
        · split at hd
          · exact absurd hd (by simp)
          · simp at hd
  · intro h rest hs hlt
    simp only [read_raw_data_for_frame, hs]
    rw [if_pos hlt]

/-- The raw substreams of the C6 witness: one header at time 3 paired
with two payload bytes. -/
def c6reader : ReaderState :=
  { events := [], tasks := [], mmaps := [],
    rawHeader := [{ time := 3, tid := 7, addr := 4096, len := 2 }],
    rawData := [97, 98], generics := [], global_time := 3, trace_dir := [],
    xsave_ok := true }

/-- The frame of the C6 witness, at the reader's current time. -/
def c6frame : TraceFrame :=
  { wFrame1 with time := 3 }

/-- Witness for C6 at a concrete reader whose next header matches the
frame's time. -/
theorem C6_witness :
    ((∃ d s1, read_raw_data_for_frame c6frame c6reader = some (some d, s1)) ↔
       (∃ h rest, c6reader.rawHeader = h :: rest ∧ h.time = c6frame.time)) ∧
    (∀ s1, read_raw_data_for_frame c6frame c6reader = some (none, s1) → s1 = c6reader) ∧
    (∀ h rest, c6reader.rawHeader = h :: rest → h.time < c6frame.time →
       read_raw_data_for_frame c6frame c6reader = none) :=
  C6_raw_for_frame c6frame c6reader (by decide)
    (by intro h rest hh; rw [show h = { time := 3, tid := 7, addr := 4096, len := 2 } by
          injection hh with h1 h2; exact h1.symm]; decide)

/-- The EVENTS record of the C8 counterexample: exec info with
extra_reg_format NONE yet one byte of extra-register data. -/
def c8record : EventsRecord :=
  { basic := { global_time := 1, tid := 5,
               ev := { code := 9, has_exec_info := true, arch := Arch.x86_64 },
               ticks := 0, monotonic_sec := 0 },
    execInfo := some { arch_tag := Arch.x86_64, reg_block := [0, 0],
                       extra_reg_format := 0, extra_reg_data := [7] } }

/-- The reader of the C8 counterexample, with a derivable XSAVE layout. -/
def c8reader : ReaderState :=
  { events := [c8record], tasks := [], mmaps := [], rawHeader := [],
    rawData := [], generics := [], global_time := 0, trace_dir := [],
    xsave_ok := true }

/-- The frame the C8 counterexample decodes to. -/
def c8frame : TraceFrame :=
  { time := 1, tid := 5, ev := { code := 9, has_exec_info := true, arch := Arch.x86_64 },
    ticks := 0, monotonic_sec := 0,
    regs := { arch := Arch.x86_64, blob := [0, 0] },
    extra_regs := { format := 0, data := [7] } }

/-- Counterexample to C8 as stated: read_frame accepts an exec-info frame
whose extra_reg_format is NONE while extra_reg_len is 1, so the claimed
equivalence (extra_reg_len == 0 iff extra_reg_format == NONE) is not
enforced when decoding. -/
theorem C8_counterexample :
    read_frame c8reader = some (c8frame,
      { events := [], tasks := [], mmaps := [], rawHeader := [], rawData := [],
        generics := [], global_time := 1, trace_dir := [], xsave_ok := true }) ∧
    ¬(c8frame.extra_regs.data.length = 0 ↔ c8frame.extra_regs.format = EXTRA_REGS_NONE) := by
  constructor
  · decide
  · decide

/-- C8 (amended): a successful read_frame on an exec-info record enforces
only one direction, extra_reg_len == 0 implies extra_reg_format == NONE
(the assert at line 337), and for extra_reg_len > 0 it requires the XSAVE
layout to be derivable from the recorded CPUID records (set_to_raw_data
succeeding), failing fatally otherwise. -/
theorem C8_extra_regs (s : ReaderState) (r : EventsRecord) (rest : List EventsRecord)
    (e : ExecInfo) (f : TraceFrame) (s1 : ReaderState)
    (hev : s.events = r :: rest) (hex : r.execInfo = some e)
    (h : read_frame s = some (f, s1)) :
    (e.extra_reg_data.length = 0 → e.extra_reg_format = EXTRA_REGS_NONE) ∧
    (0 < e.extra_reg_data.length → s.xsave_ok = true) := by
  unfold read_frame at h
  rw [hev] at h
  simp only at h
  by_cases hinfo : r.basic.ev.has_exec_info = true
  · rw [if_pos hinfo, hex] at h
    simp only at h
    by_cases hlen : e.extra_reg_data.length > 0
    · rw [if_pos hlen] at h
      refine ⟨fun h0 => absurd h0 (by omega), fun _ => ?_⟩
      by_contra hx
      rw [if_neg (by simpa using hx)] at h
      exact absurd h (by simp)
    · rw [if_neg hlen] at h
      refine ⟨fun _ => ?_, fun h0 => absurd h0 hlen⟩
      by_contra hf
      rw [if_neg hf] at h
      exact absurd h (by simp)
  · rw [if_neg hinfo, hex] at h
    exact absurd h (by simp)

/-- A well-formed exec-info record used by the C8 witness. -/
def c8okRecord : EventsRecord :=
  { basic := { global_time := 1, tid := 5,
               ev := { code := 9, has_exec_info := true, arch := Arch.x86_64 },
               ticks := 0, monotonic_sec := 0 },
    execInfo := some { arch_tag := Arch.x86_64, reg_block := [0, 0],
                       extra_reg_format := 0, extra_reg_data := [] } }

/-- The C8 witness reader. -/
def c8okReader : ReaderState :=
  { events := [c8okRecord], tasks := [], mmaps := [], rawHeader := [],
    rawData := [], generics := [], global_time := 0, trace_dir := [],
    xsave_ok := false }

/-- Witness for the amended C8 at a concrete record with empty
extra-register data. -/
theorem C8_witness :
    (([] : Bytes).length = 0 → (0 : Nat) = EXTRA_REGS_NONE) ∧
    (0 < ([] : Bytes).length → c8okReader.xsave_ok = true) :=
  C8_extra_regs c8okReader c8okRecord []
    { arch_tag := Arch.x86_64, reg_block := [0, 0],
      extra_reg_format := 0, extra_reg_data := [] }
    { time := 1, tid := 5, ev := { code := 9, has_exec_info := true, arch := Arch.x86_64 },
      ticks := 0, monotonic_sec := 0,
      regs := { arch := Arch.x86_64, blob := [0, 0] },
      extra_regs := ExtraRegisters.dflt }
    { events := [], tasks := [], mmaps := [], rawHeader := [], rawData := [],
      generics := [], global_time := 1, trace_dir := [], xsave_ok := false }
    (by decide) (by decide) (by decide)

/-- write_frame appends the encoded record and ticks the clock. -/
theorem write_frame_eq (f : TraceFrame) (w : WriterState) :
    write_frame f w =
      { w with events := w.events ++ [encodeFrame f],
               global_time := w.global_time + 1 } :=
  rfl

/-- The writer state after one write_mapped_region call, explicitly. -/
theorem write_mapped_region_snd (fs : MappedRegionFs) (km : KernelMapping)
    (st : StatBuf) (origin : MappingOrigin) (w : WriterState) :
    (write_mapped_region fs km st origin w).2 =
      { w with
        mmaps := w.mmaps ++ [mmapRecordOf w.global_time km st
          (classify_step fs km st origin w.files_assumed_immutable w.mmap_count).1],
        mmap_count := w.mmap_count + 1,
        files_assumed_immutable :=
          if (classify_step fs km st origin w.files_assumed_immutable w.mmap_count).2 then
            insertPair (st.st_dev, st.st_ino) w.files_assumed_immutable
          else w.files_assumed_immutable } := by
  unfold write_mapped_region mmapRecordOf
  cases hstep : classify_step fs km st origin w.files_assumed_immutable w.mmap_count with
  | mk src b => cases b <;> simp [hstep]

/-- The record a mapped-region write leaves in MMAPS carries the clock at
the call, the written mapping's fields, and the written stat size. -/
def MmapMatches
    (x : Int × (MappedRegionFs × KernelMapping × StatBuf × MappingOrigin))
    (r : MMapRecord) : Prop :=
  r.frame_time = x.1 ∧ kmOfRecord r = x.2.2.1 ∧ r.stat_size = x.2.2.2.1.st_size

/-- All mapped-region writes of a recording, tagged with the clock at
which each was issued. -/
def packagesMmapTimed : Int → List FramePackage →
    List (Int × (MappedRegionFs × KernelMapping × StatBuf × MappingOrigin))
  | _, [] => []
  | t, p :: ps => p.mmapWrites.map (fun x => (t, x)) ++ packagesMmapTimed (t + 1) ps

/-- The emitted record's rebuilt KernelMapping is the written one. -/
theorem kmOfRecord_mmapRecordOf (t : Int) (km : KernelMapping) (st : StatBuf)
    (src : MMapSource) : kmOfRecord (mmapRecordOf t km st src) = km :=
  rfl

/-- The raw-write fold, explicitly. -/
theorem foldl_raw_eq (l : List (Int × Bytes × Nat)) (w : WriterState) :
    l.foldl (fun acc x => write_raw x.1 x.2.1 x.2.2 acc) w =
      { w with rawHeader := w.rawHeader ++ rawHeadersOf w.global_time l,
               rawData := w.rawData ++ rawPayloadOf l } := by
  induction l generalizing w with
  | nil => simp [rawHeadersOf, rawPayloadOf]
  | cons x xs ih =>
    rw [List.foldl_cons, ih]
    simp [write_raw, rawHeadersOf, rawPayloadOf]

/-- The generic-write fold, explicitly. -/
theorem foldl_generic_eq (l : List Bytes) (w : WriterState) :
    l.foldl (fun acc d => write_generic d acc) w =
      { w with generics := w.generics ++ genericsOf w.global_time l } := by
  induction l generalizing w with
  | nil => simp [genericsOf]
  | cons x xs ih =>
    rw [List.foldl_cons, ih]
    simp [write_generic, genericsOf]

/-- The task-write fold on well-formed events, explicitly. -/
theorem foldlM_tasks_eq (l : List TraceTaskEvent) (w : WriterState)
    (hw : ∀ e ∈ l, wfTask e) :
    l.foldlM (fun acc e => write_task_event e acc) w =
      some { w with tasks := w.tasks ++ tasksOf w.global_time l } := by
  induction l generalizing w with
  | nil => simp [tasksOf]
  | cons e es ih =>
    rw [List.foldlM_cons]
    have he := hw e (by simp)
    obtain ⟨v, hv⟩ : ∃ v, e.variant = some v := by
      unfold wfTask at he
      cases hev : e.variant with
      | none => rw [hev] at he; exact absurd he.2 (by simp)
      | some v => exact ⟨v, rfl⟩
    have hstep : write_task_event e w =
        some { w with tasks := w.tasks ++
          [{ frame_time := w.global_time, tid := e.tid, variant := v }] } := by
      unfold write_task_event
      rw [hv]
    rw [hstep]
    simp only [Option.bind_eq_bind, Option.some_bind]
    rw [ih _ (fun x hx => hw x (by simp [hx]))]
    simp [tasksOf, hv]

/-- The mapped-region fold: some records are appended, one per write,
each carrying the clock, the written mapping and the written stat size. -/
theorem foldl_mmaps_streams
    (l : List (MappedRegionFs × KernelMapping × StatBuf × MappingOrigin))
    (w : WriterState) :
    ∃ mrecs c fi,
      l.foldl (fun acc x => (write_mapped_region x.1 x.2.1 x.2.2.1 x.2.2.2 acc).2) w =
        { w with mmaps := w.mmaps ++ mrecs, mmap_count := c,
                 files_assumed_immutable := fi } ∧
      List.Forall₂ MmapMatches (l.map (fun x => (w.global_time, x))) mrecs := by
  induction l generalizing w with
  | nil =>
    exact ⟨[], w.mmap_count, w.files_assumed_immutable, by simp, List.Forall₂.nil⟩
  | cons x xs ih =>
    rw [List.foldl_cons, write_mapped_region_snd]
    obtain ⟨mrecs, c, fi, heq, hrel⟩ := ih
      { w with
        mmaps := w.mmaps ++ [mmapRecordOf w.global_time x.2.1 x.2.2.1
          (classify_step x.1 x.2.1 x.2.2.1 x.2.2.2 w.files_assumed_immutable w.mmap_count).1],
        mmap_count := w.mmap_count + 1,
        files_assumed_immutable :=
          if (classify_step x.1 x.2.1 x.2.2.1 x.2.2.2 w.files_assumed_immutable w.mmap_count).2 then
            insertPair (x.2.2.1.st_dev, x.2.2.1.st_ino) w.files_assumed_immutable
          else w.files_assumed_immutable }
    refine ⟨mmapRecordOf w.global_time x.2.1 x.2.2.1
      (classify_step x.1 x.2.1 x.2.2.1 x.2.2.2 w.files_assumed_immutable w.mmap_count).1
        :: mrecs, c, fi, ?_, ?_⟩
    · rw [heq]
      simp
    · simp only [List.map_cons]
      exact List.Forall₂.cons ⟨rfl, kmOfRecord_mmapRecordOf _ _ _ _, rfl⟩ hrel

/-- One package's effect on the writer, fully explicit up to the emitted
mmap records' sources and the private counters. -/
theorem writePackage_streams (p : FramePackage) (w : WriterState)
    (hw : ∀ e ∈ p.taskWrites, wfTask e) :
    ∃ mrecs c fi,
      List.Forall₂ MmapMatches (p.mmapWrites.map (fun x => (w.global_time, x))) mrecs ∧
      writePackage p w = some
        { events := w.events ++ [encodeFrame p.frame],
          tasks := w.tasks ++ tasksOf w.global_time p.taskWrites,
          mmaps := w.mmaps ++ mrecs,
          rawHeader := w.rawHeader ++ rawHeadersOf w.global_time p.rawWrites,
          rawData := w.rawData ++ rawPayloadOf p.rawWrites,
          generics := w.generics ++ genericsOf w.global_time p.genericWrites,
          global_time := w.global_time + 1,
          mmap_count := c,
          files_assumed_immutable := fi } := by
  unfold writePackage
  rw [foldl_raw_eq, foldl_generic_eq]
  simp only []
  rw [foldlM_tasks_eq _ _ hw]
  simp only []
  obtain ⟨mrecs, c, fi, heq, hrel⟩ := foldl_mmaps_streams p.mmapWrites
    { w with
      rawHeader := w.rawHeader ++ rawHeadersOf w.global_time p.rawWrites,
      rawData := w.rawData ++ rawPayloadOf p.rawWrites,
      generics := w.generics ++ genericsOf w.global_time p.genericWrites,
      tasks := w.tasks ++ tasksOf w.global_time p.taskWrites }
  rw [heq, write_frame_eq]
  exact ⟨mrecs, c, fi, hrel, rfl⟩

/-- A whole recording's effect on the writer, fully explicit up to the
emitted mmap records' sources and the private counters. -/
theorem runPackages_streams (ps : List FramePackage) (w : WriterState)
    (hta : ∀ p ∈ ps, ∀ e ∈ p.taskWrites, wfTask e) :
    ∃ w1 mrecs c fi,
      runPackages ps w = some w1 ∧
      w1 = { events := w.events ++ packagesEvents ps,
             tasks := w.tasks ++ packagesTasks w.global_time ps,
             mmaps := w.mmaps ++ mrecs,
             rawHeader := w.rawHeader ++ packagesRawHeaders w.global_time ps,
             rawData := w.rawData ++ packagesRawData ps,
             generics := w.generics ++ packagesGenerics w.global_time ps,
             global_time := w.global_time + ps.length,
             mmap_count := c, files_assumed_immutable := fi } ∧
      List.Forall₂ MmapMatches (packagesMmapTimed w.global_time ps) mrecs := by
  induction ps generalizing w with
  | nil =>
    refine ⟨w, [], w.mmap_count, w.files_assumed_immutable, rfl, ?_, List.Forall₂.nil⟩
    simp [packagesEvents, packagesTasks, packagesRawHeaders, packagesRawData,
      packagesGenerics]
  | cons p ps ih =>
    obtain ⟨mrecs0, c0, fi0, hrel0, heq0⟩ := writePackage_streams p w (hta p (by simp))
    obtain ⟨w1, mrecs, c, fi, hrun, hw1, hrel⟩ := ih
      { events := w.events ++ [encodeFrame p.frame],
        tasks := w.tasks ++ tasksOf w.global_time p.taskWrites,
        mmaps := w.mmaps ++ mrecs0,
        rawHeader := w.rawHeader ++ rawHeadersOf w.global_time p.rawWrites,
        rawData := w.rawData ++ rawPayloadOf p.rawWrites,
        generics := w.generics ++ genericsOf w.global_time p.genericWrites,
        global_time := w.global_time + 1,
        mmap_count := c0, files_assumed_immutable := fi0 }
      (fun q hq e he => hta q (by simp [hq]) e he)
    refine ⟨w1, mrecs0 ++ mrecs, c, fi, ?_, ?_, ?_⟩
    · unfold runPackages
      rw [heq0]
      exact hrun
    · rw [hw1]
      simp only [packagesEvents, List.map_cons, packagesTasks, packagesRawHeaders,
        packagesRawData, packagesGenerics, WriterState.mk.injEq, List.length_cons,
        List.append_assoc, List.singleton_append, eq_self_iff_true, true_and, and_true]
      push_cast
      ring
    · show List.Forall₂ MmapMatches (packagesMmapTimed w.global_time (p :: ps)) _
      unfold packagesMmapTimed
      exact List.rel_append hrel0 hrel

/-- Decoding an encoded well-formed frame at the right clock reproduces
the frame exactly. -/
theorem read_frame_encode (f : TraceFrame) (s : ReaderState) (rest : List EventsRecord)
    (hs : s.events = encodeFrame f :: rest) (ht : f.time = s.global_time + 1)
    (hwf : wfFrame f) (hx : s.xsave_ok = true) :
    read_frame s =
      some (f, { s with events := rest, global_time := s.global_time + 1 }) := by
  unfold read_frame
  rw [hs]
  simp only [encodeFrame]
  cases hinfo : f.ev.has_exec_info with
  | false =>
    obtain ⟨h1, h2⟩ := hwf.1 hinfo
    simp only [hinfo, Bool.false_eq_true, if_false]
    have hbf : ({ time := f.time, tid := f.tid, ev := f.ev, ticks := f.ticks,
                  monotonic_sec := f.monotonic_sec, regs := Registers.dflt,
                  extra_regs := ExtraRegisters.dflt } : TraceFrame) = f := by
      rw [← h1, ← h2]
    simp only [hbf]
    rw [if_pos ht]
  | true =>
    simp only [hinfo, if_true]
    by_cases hlen : f.extra_regs.data.length > 0
    · rw [if_pos hlen, if_pos hx]
      have hbf : ({ time := f.time, tid := f.tid, ev := f.ev, ticks := f.ticks,
                    monotonic_sec := f.monotonic_sec,
                    regs := { arch := f.regs.arch, blob := f.regs.blob },
                    extra_regs := { format := f.extra_regs.format,
                                    data := f.extra_regs.data } } : TraceFrame) = f := rfl
      simp only [hbf]
      rw [if_pos ht]
    · rw [if_neg hlen]
      have hdata : f.extra_regs.data = [] := by
        cases hd : f.extra_regs.data with
        | nil => rfl
        | cons a l => rw [hd] at hlen; exact absurd (by simp) hlen
      have hfmt : f.extra_regs.format = EXTRA_REGS_NONE := hwf.2 hdata
      rw [if_pos hfmt]
      have hbf : ({ time := f.time, tid := f.tid, ev := f.ev, ticks := f.ticks,
                    monotonic_sec := f.monotonic_sec,
                    regs := { arch := f.regs.arch, blob := f.regs.blob },
                    extra_regs := ExtraRegisters.dflt } : TraceFrame) = f := by
        have he : ExtraRegisters.dflt = f.extra_regs := by
          unfold ExtraRegisters.dflt
          rw [← hdata, ← hfmt]
        rw [he]
      simp only [hbf]
      rw [if_pos ht]

/-- Consuming one frame's raw records from the front of the paired raw
substreams reproduces exactly the written payloads. -/
theorem readRawsN_all (l : List (Int × Bytes × Nat)) (f : TraceFrame)
    (s : ReaderState) (H : List RawHeaderRecord) (D : Bytes)
    (hh : s.rawHeader = rawHeadersOf s.global_time l ++ H)
    (hd : s.rawData = rawPayloadOf l ++ D)
    (ht : f.time = s.global_time) :
    readRawsN l.length f s =
      some (l.map rawDataOf, { s with rawHeader := H, rawData := D }) := by
  induction l generalizing s with
  | nil =>
    simp only [rawHeadersOf, List.map_nil, List.nil_append] at hh
    simp only [rawPayloadOf, List.map_nil, List.flatten_nil, List.nil_append] at hd
    simp only [List.length_nil, readRawsN, List.map_nil, Option.some.injEq,
      Prod.mk.injEq, true_and]
    rw [← hh, ← hd]
  | cons x xs ih =>
    have hh1 : s.rawHeader =
        { time := s.global_time, tid := x.1, addr := x.2.2, len := x.2.1.length } ::
          (rawHeadersOf s.global_time xs ++ H) := by
      rw [hh]
      simp [rawHeadersOf]
    have hd1 : s.rawData = x.2.1 ++ (rawPayloadOf xs ++ D) := by
      rw [hd]
      simp [rawPayloadOf]
    simp only [List.length_cons, readRawsN]
    have hstep : read_raw_data_for_frame f s = some (some (rawDataOf x),
        { s with
          rawHeader := rawHeadersOf s.global_time xs ++ H,
          rawData := rawPayloadOf xs ++ D }) := by
      simp only [read_raw_data_for_frame, read_raw_data, hh1]
      rw [if_neg (by omega), if_neg (by omega)]
      simp only [if_true, ite_true, eq_self_iff_true]
      rw [if_pos (by rw [hd1]; simp), hd1]
      simp only [List.take_left, List.drop_left, rawDataOf]
    rw [hstep]
    have ihres := ih
      { s with
        rawHeader := rawHeadersOf s.global_time xs ++ H,
        rawData := rawPayloadOf xs ++ D } rfl rfl ht
    simp only [ihres, List.map_cons]

/-- Consuming one frame's generic records from the front of the GENERIC
substream reproduces exactly the written payloads. -/
theorem readGenericsN_all (l : List Bytes) (f : TraceFrame) (s : ReaderState)
    (G : List GenericRecord)
    (hg : s.generics = genericsOf s.global_time l ++ G)
    (ht : f.time = s.global_time) :
    readGenericsN l.length f s = some (l, { s with generics := G }) := by
  induction l generalizing s with
  | nil =>
    simp only [genericsOf, List.map_nil, List.nil_append] at hg
    simp only [List.length_nil, readGenericsN, Option.some.injEq, Prod.mk.injEq,
      true_and]
    rw [← hg]
  | cons x xs ih =>
    have hg1 : s.generics =
        { time := s.global_time, data := x } :: (genericsOf s.global_time xs ++ G) := by
      rw [hg]
      simp [genericsOf]
    simp only [List.length_cons, readGenericsN]
    have hstep : read_generic_for_frame f s = some (some x,
        { s with generics := genericsOf s.global_time xs ++ G }) := by
      simp only [read_generic_for_frame, read_generic, hg1]
      rw [if_neg (by omega), if_neg (by omega)]
      simp only [if_true, ite_true, eq_self_iff_true]
    rw [hstep]
    have ihres := ih { s with generics := genericsOf s.global_time xs ++ G } rfl ht
    simp only [ihres]

/-- The canonical replay of a well-formed recording reproduces every
frame with its raw and generic payloads, in order, and leaves the clock
at the frame count. -/
theorem replayPackages_all (ps : List FramePackage) (s : ReaderState)
    (hwf : wfPackages (s.global_time + 1) ps)
    (hs : s.events = packagesEvents ps)
    (hrh : s.rawHeader = packagesRawHeaders (s.global_time + 1) ps)
    (hrd : s.rawData = packagesRawData ps)
    (hg : s.generics = packagesGenerics (s.global_time + 1) ps)
    (hx : s.xsave_ok = true) :
    replayPackages ps s = some (ps.map expectedPackage,
      { s with
        events := [], rawHeader := [], rawData := [], generics := [],
        global_time := s.global_time + ps.length }) := by
  induction ps generalizing s with
  | nil =>
    simp only [packagesEvents, List.map_nil] at hs
    simp only [packagesRawHeaders] at hrh
    simp only [packagesRawData] at hrd
    simp only [packagesGenerics] at hg
    simp only [replayPackages, List.map_nil, List.length_nil, Option.some.injEq,
      Prod.mk.injEq, true_and]
    rw [← hs, ← hrh, ← hrd, ← hg]
    simp
  | cons p ps ih =>
    obtain ⟨hft, hfwf, hta, hmm, hrest⟩ := hwf
    have h1 := read_frame_encode p.frame s (packagesEvents ps) (by rw [hs]; rfl)
      hft hfwf hx
    unfold replayPackages
    rw [h1]
    have h2 := readRawsN_all p.rawWrites p.frame
      { s with events := packagesEvents ps, global_time := s.global_time + 1 }
      (packagesRawHeaders (s.global_time + 1 + 1) ps) (packagesRawData ps)
      (by rw [hrh]; rfl) (by rw [hrd]; rfl) hft
    simp only [h2]
    have h3 := readGenericsN_all p.genericWrites p.frame
      { s with
        events := packagesEvents ps, global_time := s.global_time + 1,
        rawHeader := packagesRawHeaders (s.global_time + 1 + 1) ps,
        rawData := packagesRawData ps }
      (packagesGenerics (s.global_time + 1 + 1) ps)
      (by rw [hg]; rfl) hft
    simp only [h3]
    have ihres := ih
      { s with
        events := packagesEvents ps, global_time := s.global_time + 1,
        rawHeader := packagesRawHeaders (s.global_time + 1 + 1) ps,
        rawData := packagesRawData ps,
        generics := packagesGenerics (s.global_time + 1 + 1) ps }
      hrest rfl rfl rfl rfl hx
    simp only [ihres, List.map_cons, Option.some.injEq, Prod.mk.injEq,
      ReaderState.mk.injEq, List.length_cons, expectedPackage, true_and, and_true,
      eq_self_iff_true]
    push_cast
    ring

/-- A TASKS record that read_task_event accepts. -/
def wfTaskRecord (r : TaskEventRecord) : Prop :=
  0 < r.tid ∧
  match r.variant with
  | TaskVariant.clone p o _ => 0 < p ∧ 0 < o
  | _ => True

/-- Reading back a list of valid TASKS records reproduces each record's
tid and variant, in order. -/
theorem readTasksN_all (trecs : List TaskEventRecord) (s : ReaderState)
    (hs : s.tasks = trecs) (hwf : ∀ r ∈ trecs, wfTaskRecord r) :
    readTasksN trecs.length s =
      some (trecs.map (fun r => ({ tid := r.tid, variant := some r.variant } : TraceTaskEvent)),
            { s with tasks := [] }) := by
  induction trecs generalizing s with
  | nil =>
    simp only [List.length_nil, readTasksN, List.map_nil, Option.some.injEq,
      Prod.mk.injEq, true_and]
    rw [← hs]
  | cons r rs ih =>
    obtain ⟨hr1, hr2⟩ := hwf r (by simp)
    have hstep : read_task_event s =
        some ({ tid := r.tid, variant := some r.variant }, { s with tasks := rs }) := by
      unfold read_task_event
      rw [hs]
      simp only []
      rw [show i32_to_tid r.tid = some r.tid by
        unfold i32_to_tid; rw [if_neg (by omega)]]
      cases hv : r.variant with
      | clone p o fl =>
        rw [hv] at hr2
        simp only at hr2
        simp only []
        rw [show i32_to_tid p = some p by
          unfold i32_to_tid; rw [if_neg (by omega)]]
        rw [show i32_to_tid o = some o by
          unfold i32_to_tid; rw [if_neg (by omega)]]
      | exec fn cl => rfl
      | exit st => rfl
    simp only [List.length_cons, readTasksN, hstep]
    have ihres := ih { s with tasks := rs } rfl (fun x hx => hwf x (by simp [hx]))
    simp only [ihres, List.map_cons]

/-- The task events rebuilt from one package's TASKS records are the
written events. -/
theorem tasksOf_map (t : Int) (tw : List TraceTaskEvent)
    (h : ∀ e ∈ tw, wfTask e) :
    (tasksOf t tw).map
        (fun r => ({ tid := r.tid, variant := some r.variant } : TraceTaskEvent)) = tw := by
  induction tw with
  | nil => rfl
  | cons e es ih =>
    have he := h e (by simp)
    obtain ⟨v, hv⟩ : ∃ v, e.variant = some v := by
      unfold wfTask at he
      cases hev : e.variant with
      | none => rw [hev] at he; exact absurd he.2 (by simp)
      | some v => exact ⟨v, rfl⟩
    simp only [tasksOf, List.map_cons, List.map_map] at ih ⊢
    rw [hv]
    simp only [Option.getD_some]
    have : ({ tid := e.tid, variant := some v } : TraceTaskEvent) = e := by
      rw [← hv]
    rw [this]
    have ih2 := ih (fun x hx => h x (by simp [hx]))
    simp only [tasksOf, List.map_map] at ih2
    rw [List.cons_inj_right]
    exact ih2

/-- The task events rebuilt from a recording's TASKS records are the
written events, in order. -/
theorem packagesTasks_map (ps : List FramePackage) :
    ∀ t, (∀ p ∈ ps, ∀ e ∈ p.taskWrites, wfTask e) →
      (packagesTasks t ps).map
          (fun r => ({ tid := r.tid, variant := some r.variant } : TraceTaskEvent)) =
        packagesTaskEvents ps := by
  induction ps with
  | nil => intro t h; rfl
  | cons p ps ih =>
    intro t h
    simp only [packagesTasks, packagesTaskEvents, List.map_cons, List.map_append,
      List.flatten_cons]
    rw [tasksOf_map t p.taskWrites (h p (by simp))]
    have ih2 := ih (t + 1) (fun q hq e he => h q (by simp [hq]) e he)
    simp only [packagesTaskEvents] at ih2
    rw [ih2]

/-- Every TASKS record of a well-formed recording is valid. -/
theorem packagesTasks_wf (ps : List FramePackage) :
    ∀ t, (∀ p ∈ ps, ∀ e ∈ p.taskWrites, wfTask e) →
      ∀ r ∈ packagesTasks t ps, wfTaskRecord r := by
  induction ps with
  | nil => intro t _ r hr; exact absurd hr (by simp [packagesTasks])
  | cons p ps ih =>
    intro t h r hr
    simp only [packagesTasks, List.mem_append] at hr
    rcases hr with hr | hr
    · simp only [tasksOf, List.mem_map] at hr
      obtain ⟨e, he, rfl⟩ := hr
      have hwf := h p (by simp) e he
      obtain ⟨hw1, hw2⟩ := hwf
      refine ⟨hw1, ?_⟩
      cases hv : e.variant with
      | none => rw [hv] at hw2; exact absurd hw2 (by simp)
      | some v =>
        rw [hv] at hw2
        simp only [hv, Option.getD_some]
        cases v with
        | clone a b c => exact hw2
        | exec fn cl => trivial
        | exit st => trivial
    · exact ih (t + 1) (fun q hq e he => h q (by simp [hq]) e he) r hr

/-- Extraction: a well-formed recording has well-formed task writes. -/
theorem wfPackages_tasks (ps : List FramePackage) :
    ∀ t, wfPackages t ps → ∀ p ∈ ps, ∀ e ∈ p.taskWrites, wfTask e := by
  induction ps with
  | nil => intro t _ p hp; exact absurd hp (by simp)
  | cons q qs ih =>
    intro t h p hp
    obtain ⟨-, -, hta, -, hrest⟩ := h
    rcases List.mem_cons.mp hp with rfl | hp2
    · exact hta
    · exact ih (t + 1) hrest p hp2

/-- Extraction: a well-formed recording has well-formed mapping writes. -/
theorem wfPackages_mmaps (ps : List FramePackage) :
    ∀ t, wfPackages t ps → ∀ p ∈ ps, ∀ x ∈ p.mmapWrites, wfMmapWrite x := by
  induction ps with
  | nil => intro t _ p hp; exact absurd hp (by simp)
  | cons q qs ih =>
    intro t h p hp
    obtain ⟨-, -, -, hmm, hrest⟩ := h
    rcases List.mem_cons.mp hp with rfl | hp2
    · exact hmm
    · exact ih (t + 1) hrest p hp2

/-- What read_mapped_region (data requested, DONT_VALIDATE, no time
constraint) reconstructs from one MMAPS record. -/
def decodeMMap (dir : Bytes) (m : MMapRecord) : KernelMapping × MappedData :=
  (kmOfRecord m,
   match m.source with
   | MMapSource.zero =>
     { time := m.frame_time, source := MappedDataSource.SOURCE_ZERO, file_name := [],
       file_size_bytes := m.stat_size, data_offset_bytes := 0 }
   | MMapSource.trace =>
     { time := m.frame_time, source := MappedDataSource.SOURCE_TRACE, file_name := [],
       file_size_bytes := m.stat_size, data_offset_bytes := 0 }
   | MMapSource.file backing =>
     { time := m.frame_time, source := MappedDataSource.SOURCE_FILE,
       file_name :=
         if backing.head? = some 47 then backing else dir ++ strBytes "/" ++ backing,
       file_size_bytes := m.stat_size, data_offset_bytes := m.file_offset_bytes })

/-- One valid MMAPS record decodes to its reconstruction and is consumed. -/
theorem read_mapped_region_step (s : ReaderState) (m : MMapRecord)
    (rest : List MMapRecord) (hs : s.mmaps = m :: rest) (h1 : 0 < m.frame_time)
    (h2 : 0 ≤ m.stat_size) (h3 : 0 ≤ m.file_offset_bytes) :
    read_mapped_region false s =
      some (some (decodeMMap s.trace_dir m), { s with mmaps := rest }) := by
  unfold read_mapped_region decodeMMap
  rw [hs]
  simp only []
  rw [if_neg (by simp)]
  rw [if_neg (by omega)]
  cases m.source with
  | zero => rfl
  | trace => rfl
  | file backing =>
    simp only []
    rw [if_neg (by omega), if_neg (by omega)]

/-- Reading back a list of valid MMAPS records reproduces each record's
mapping and data, in order. -/
theorem readMmapsN_all (ms : List MMapRecord) (s : ReaderState)
    (hs : s.mmaps = ms)
    (hwf : ∀ m ∈ ms, 0 < m.frame_time ∧ 0 ≤ m.stat_size ∧ 0 ≤ m.file_offset_bytes) :
    readMmapsN ms.length s =
      some (ms.map (decodeMMap s.trace_dir), { s with mmaps := [] }) := by
  induction ms generalizing s with
  | nil =>
    simp only [List.length_nil, readMmapsN, List.map_nil, Option.some.injEq,
      Prod.mk.injEq, true_and]
    rw [← hs]
  | cons m ms ih =>
    obtain ⟨h1, h2, h3⟩ := hwf m (by simp)
    have hstep := read_mapped_region_step s m ms hs h1 h2 h3
    simp only [List.length_cons, readMmapsN, hstep]
    have ihres := ih { s with mmaps := ms } rfl (fun x hx => hwf x (by simp [hx]))
    simp only [ihres, List.map_cons]

/-- Each right element of a Forall₂ has a related left element. -/
theorem forall2_mem_right {α β : Type} {R : α → β → Prop} {l1 : List α} {l2 : List β}
    (h : List.Forall₂ R l1 l2) : ∀ b ∈ l2, ∃ a ∈ l1, R a b := by
  induction h with
  | nil => intro b hb; exact absurd hb (by simp)
  | cons hR hrest ih =>
    intro b hb
    rcases List.mem_cons.mp hb with rfl | hb2
    · exact ⟨_, by simp, hR⟩
    · obtain ⟨a, ha, har⟩ := ih b hb2
      exact ⟨a, by simp [ha], har⟩

/-- Mapping both sides of a Forall₂ through pointwise-equal projections. -/
theorem forall2_map_eq {α β γ : Type} {R : α → β → Prop} {l1 : List α} {l2 : List β}
    (h : List.Forall₂ R l1 l2) (f : β → γ) (g : α → γ)
    (hfg : ∀ a b, R a b → f b = g a) : l2.map f = l1.map g := by
  induction h with
  | nil => rfl
  | cons hR hrest ih => simp [hfg _ _ hR, ih]

/-- Timed mapping writes carry times at least the starting clock and come
from some package. -/
theorem packagesMmapTimed_mem (ps : List FramePackage) :
    ∀ t0 y, y ∈ packagesMmapTimed t0 ps →
      t0 ≤ y.1 ∧ ∃ p ∈ ps, y.2 ∈ p.mmapWrites := by
  induction ps with
  | nil => intro t0 y hy; exact absurd hy (by simp [packagesMmapTimed])
  | cons p ps ih =>
    intro t0 y hy
    simp only [packagesMmapTimed, List.mem_append] at hy
    rcases hy with hy | hy
    · simp only [List.mem_map] at hy
      obtain ⟨x, hx, rfl⟩ := hy
      exact ⟨le_refl _, p, by simp, hx⟩
    · obtain ⟨h1, q, hq, hx⟩ := ih (t0 + 1) y hy
      exact ⟨by omega, q, by simp [hq], hx⟩

/-- The records of a well-formed recording pass read_mapped_region's
validity checks. -/
theorem mrecs_wf (ps : List FramePackage) (mrecs : List MMapRecord) (t0 : Int)
    (h0 : 0 < t0)
    (hrel : List.Forall₂ MmapMatches (packagesMmapTimed t0 ps) mrecs)
    (hwfm : ∀ p ∈ ps, ∀ x ∈ p.mmapWrites, wfMmapWrite x) :
    ∀ m ∈ mrecs, 0 < m.frame_time ∧ 0 ≤ m.stat_size ∧ 0 ≤ m.file_offset_bytes := by
  intro m hm
  obtain ⟨y, hy, hmatch⟩ := forall2_mem_right hrel m hm
  obtain ⟨hty, p, hp, hx⟩ := packagesMmapTimed_mem ps t0 y hy
  obtain ⟨hsz, hoff⟩ := hwfm p hp y.2 hx
  obtain ⟨hmt, hmk, hms⟩ := hmatch
  refine ⟨by omega, by rw [hms]; exact hsz, ?_⟩
  have : m.file_offset_bytes = y.2.2.1.file_offset_bytes :=
    congrArg KernelMapping.file_offset_bytes hmk
  rw [this]
  exact hoff

/-- The written mappings, extracted from the timed write list. -/
theorem packagesMmapTimed_kms (ps : List FramePackage) :
    ∀ t0, (packagesMmapTimed t0 ps).map (fun y => y.2.2.1) = packagesKms ps := by
  induction ps with
  | nil => intro t0; rfl
  | cons p ps ih =>
    intro t0
    simp only [packagesMmapTimed, packagesKms, List.map_append, List.map_map,
      List.map_cons, List.flatten_cons]
    rw [ih (t0 + 1)]
    simp only [packagesKms]
    rfl

/-- C1: round trip. For every well-formed recording (frames stamped with
the writer clock, task events with positive tids and real variants,
mappings with nonnegative sizes and offsets), running the writes against
a fresh TraceWriter, closing it, and opening a TraceReader on the result
reproduces, via the corresponding read operations and in order: every
frame with all its payload fields (including exec-info register data),
every raw-data record, every generic record, every task event with all
payload fields (cmd_line entries are byte lists, so embedded NUL bytes
are preserved), and every mapped region's KernelMapping. -/
theorem C1_round_trip (ps : List FramePackage) (dir : Bytes) (hwf : wfPackages 1 ps) :
    ∃ w : WriterState,
      runPackages ps TraceWriter.init = some w ∧
      replayPackages ps (TraceReader.ofTrace (TraceWriter.close w) dir true) =
        some (ps.map expectedPackage,
          { TraceReader.ofTrace (TraceWriter.close w) dir true with
            events := [], rawHeader := [], rawData := [], generics := [],
            global_time := (ps.length : Int) }) ∧
      readTasksN w.tasks.length (TraceReader.ofTrace (TraceWriter.close w) dir true) =
        some (packagesTaskEvents ps,
          { TraceReader.ofTrace (TraceWriter.close w) dir true with tasks := [] }) ∧
      readMmapsN w.mmaps.length (TraceReader.ofTrace (TraceWriter.close w) dir true) =
        some (w.mmaps.map (decodeMMap dir),
          { TraceReader.ofTrace (TraceWriter.close w) dir true with mmaps := [] }) ∧
      w.mmaps.map kmOfRecord = packagesKms ps := by
  have hta := wfPackages_tasks ps 1 hwf
  have hmmw := wfPackages_mmaps ps 1 hwf
  obtain ⟨w, mrecs, c, fi, hrun, hw, hrel⟩ := runPackages_streams ps TraceWriter.init hta
  simp only [TraceWriter.init, List.nil_append] at hw hrel
  refine ⟨w, hrun, ?_, ?_, ?_, ?_⟩
  · have hreplay := replayPackages_all ps
      (TraceReader.ofTrace (TraceWriter.close w) dir true)
      (by simpa using hwf) (by rw [hw]; rfl)
      (by rw [hw]; show packagesRawHeaders 1 ps = packagesRawHeaders (0 + 1) ps; norm_num)
      (by rw [hw]; rfl)
      (by rw [hw]; show packagesGenerics 1 ps = packagesGenerics (0 + 1) ps; norm_num)
      rfl
    rw [hreplay]
    simp [TraceReader.ofTrace]
  · have hlen : w.tasks = packagesTasks 1 ps := by rw [hw]
    have htr := readTasksN_all (packagesTasks 1 ps)
      (TraceReader.ofTrace (TraceWriter.close w) dir true)
      (by rw [hw]; rfl) (packagesTasks_wf ps 1 hta)
    rw [hlen, htr, packagesTasks_map ps 1 hta]
  · have hmrec : w.mmaps = mrecs := by rw [hw]
    have hmr := readMmapsN_all mrecs
      (TraceReader.ofTrace (TraceWriter.close w) dir true)
      (by rw [hw]; rfl) (mrecs_wf ps mrecs 1 (by norm_num) hrel hmmw)
    rw [hmrec, hmr]
    rfl
  · rw [show w.mmaps = mrecs from by rw [hw]]
    rw [forall2_map_eq hrel kmOfRecord (fun y => y.2.2.1) (fun a b hab => hab.2.1),
      packagesMmapTimed_kms ps 1]

/-- Witness frame 1: a SCHED-like frame without exec info at time 1. -/
def c1frame1 : TraceFrame :=
  { time := 1, tid := 10, ev := { code := 2, has_exec_info := false, arch := Arch.x86_64 },
    ticks := 5, monotonic_sec := 4614256656552045848,
    regs := Registers.dflt, extra_regs := ExtraRegisters.dflt }

/-- Witness frame 2: an exec-info frame at time 2 with extra registers. -/
def c1frame2 : TraceFrame :=
  { time := 2, tid := 10, ev := { code := 4, has_exec_info := true, arch := Arch.x86_64 },
    ticks := 9, monotonic_sec := 0,
    regs := { arch := Arch.x86_64, blob := [1, 2, 3, 4] },
    extra_regs := { format := 1, data := [7, 8] } }

/-- Witness package 1: raw, generic, CLONE / EXEC / EXIT task events (the
EXEC cmd_line has an entry with an embedded NUL byte), and a mapping. -/
def c1pkg1 : FramePackage :=
  { rawWrites := [(7, [97, 98, 99], 4096)],
    genericWrites := [[1, 2, 3]],
    taskWrites :=
      [{ tid := 10, variant := some (TaskVariant.clone 5 11 17) },
       { tid := 10, variant := some (TaskVariant.exec (strBytes "/bin/sh")
          [[47, 98], [0, 104, 0], []]) },
       { tid := 10, variant := some (TaskVariant.exit 3) }],
    mmapWrites :=
      [({ clone1 := false, clone2 := false, hardlink := false, should_copy := true },
        { start := 4096, end_ := 8192, fsname := strBytes "/lib/x.so", device := 9,
          inode := 33, prot := 1, flags := 2, file_offset_bytes := 0 },
        { st_dev := 9, st_ino := 33, st_mode := 420, st_uid := 0, st_gid := 0,
          st_size := 4096, st_mtime := 100 },
        MappingOrigin.SYSCALL_MAPPING)],
    frame := c1frame1 }

/-- Witness package 2: just the exec-info frame. -/
def c1pkg2 : FramePackage :=
  { rawWrites := [], genericWrites := [], taskWrites := [], mmapWrites := [],
    frame := c1frame2 }

/-- Witness for C1 at a concrete two-frame recording. -/
theorem C1_witness :
    ∃ w : WriterState,
      runPackages [c1pkg1, c1pkg2] TraceWriter.init = some w ∧
      replayPackages [c1pkg1, c1pkg2]
          (TraceReader.ofTrace (TraceWriter.close w) (strBytes "/trace") true) =
        some ([c1pkg1, c1pkg2].map expectedPackage,
          { TraceReader.ofTrace (TraceWriter.close w) (strBytes "/trace") true with
            events := [], rawHeader := [], rawData := [], generics := [],
            global_time := (([c1pkg1, c1pkg2] : List FramePackage).length : Int) }) ∧
      readTasksN w.tasks.length
          (TraceReader.ofTrace (TraceWriter.close w) (strBytes "/trace") true) =
        some (packagesTaskEvents [c1pkg1, c1pkg2],
          { TraceReader.ofTrace (TraceWriter.close w) (strBytes "/trace") true with
            tasks := [] }) ∧
      readMmapsN w.mmaps.length
          (TraceReader.ofTrace (TraceWriter.close w) (strBytes "/trace") true) =
        some (w.mmaps.map (decodeMMap (strBytes "/trace")),
          { TraceReader.ofTrace (TraceWriter.close w) (strBytes "/trace") true with
            mmaps := [] }) ∧
      w.mmaps.map kmOfRecord = packagesKms [c1pkg1, c1pkg2] :=
  C1_round_trip [c1pkg1, c1pkg2] (strBytes "/trace") (by
    refine ⟨rfl, ?_, ?_, ?_, rfl, ?_, ?_, ?_, trivial⟩
    · exact ⟨fun _ => ⟨rfl, rfl⟩, fun _ => rfl⟩
    · intro e he
      simp only [c1pkg1, List.mem_cons, List.not_mem_nil, or_false] at he
      rcases he with rfl | rfl | rfl
      · refine ⟨by decide, ?_⟩
        show 0 < (5 : Int) ∧ 0 < (11 : Int)
        exact ⟨by decide, by decide⟩
      · refine ⟨by decide, ?_⟩
        show True
        trivial
      · refine ⟨by decide, ?_⟩
        show True
        trivial
    · intro x hx
      simp only [c1pkg1, List.mem_cons, List.not_mem_nil, or_false] at hx
      rw [hx]
      exact ⟨by decide, by decide⟩
    · exact ⟨fun h => absurd h (by decide), fun h => absurd h (by decide)⟩
    · intro e he
      exact absurd he (by simp [c1pkg2])
    · intro x hx
      exact absurd hx (by simp [c1pkg2]))
